import Mathlib

/-!
Shallow embedding of the lysergic-tokenizer Solana program
(crates `src/src` — the processor crate — and `src/program/src`),
with theorems checking the natural-language specification against it.

Modelling conventions:
* `Pubkey` is a symbolic address type.  `Pubkey.assoc w m` stands for
  `spl_associated_token_account::get_associated_token_address(w, m)` and the
  `fpa*` constructors stand for `Pubkey::find_program_address(seeds, pid).0`,
  one constructor per seed shape occurring in this development (the address
  search is deterministic and collision-free, so distinct seed shapes give
  distinct addresses and equal arguments give equal addresses).
* Cross-program invocations are recorded as a list of `Effect`s returned on
  success; any error aborts with no effect, matching the host's transaction
  rollback.  A Rust panic (out-of-range slice) is the distinguished outcome
  `ProgErr.panic`, not a returned program error.
* The chain clock (`Clock::get()?.unix_timestamp`) and the wall clock read by
  `chrono::Utc::now()` are both modelled by `Env.now`; `Rent::minimum_balance`
  for the fixed state size is `Env.rent_min`.
* Account data: the persisted state struct is fixed-size plain data, so
  `borsh` deserialization of the leading `LYSERGIC_TOKENIZER_STATE_SIZE` bytes
  always succeeds once the slice exists; `AccountInfo.stored` is that parse,
  meaningful whenever `data_len` is at least the state size.  Slicing shorter
  data panics in Rust, which `read_tokenizer_state` reflects.
-/

namespace LysergicTokenizer

/-- Symbolic Solana addresses.  `named` covers arbitrary externally supplied
keys; `crateId` is `crate::id()` (`LSDjBzV1CdC4zeXETyLnoUddeBeQAvXXRo49j8rSguH`);
`assoc` is the associated-token address of (wallet, mint).  The `fpa…`
constructors are `find_program_address` results for each seed shape used in
the source or in the spec:
* `fpaMintExpiry mint e pid`       — seeds `[mint.to_bytes(), e.to_le_bytes()]`
  (src/src/lib.rs `get_tokenizer_address`);
* `fpaAddrLit a s pid`             — seeds `[a.to_bytes(), s]`
  (src/src/lib.rs `get_principal_mint_address` / `get_yield_mint_address`);
* `fpaLitMintExpiry s mint e pid`  — seeds `[s, mint.to_bytes(), e.to_le_bytes()]`
  (spec §6 position derivation; src/program/src/lib.rs `get_tokenizer_address`);
* `fpaLitAddr s a pid`             — seeds `[s, a.to_bytes()]`
  (spec §6 mint derivations; src/program/src/lib.rs). -/
inductive Pubkey where
  | named (s : String)
  | crateId
  | splTokenId
  | systemProgramId
  | assoc (wallet mint : Pubkey)
  | fpaMintExpiry (mint : Pubkey) (e : Int) (pid : Pubkey)
  | fpaAddrLit (a : Pubkey) (s : String) (pid : Pubkey)
  | fpaLitMintExpiry (s : String) (mint : Pubkey) (e : Int) (pid : Pubkey)
  | fpaLitAddr (s : String) (a : Pubkey) (pid : Pubkey)
  deriving DecidableEq

/-- One seed of a `find_program_address` / `invoke_signed` seed list:
a string literal, the 32 bytes of a key, the 8 little-endian bytes of an
`i64`, or raw bytes. -/
inductive SeedOf (K : Type) where
  | lit (s : String)
  | keyBytes (k : K)
  | le64 (i : Int)
  | bytes (bs : List Nat)
  deriving DecidableEq

/-- A signer seed list as passed to `invoke_signed` (a single signer). -/
abbrev Seeds := List (SeedOf Pubkey)

/-- The seed list and derivation program id that an `fpa…` address stands
for, spelling out the byte sequences each constructor abbreviates. -/
def Pubkey.fpaSeeds : Pubkey → Option (Seeds × Pubkey)
  | .fpaMintExpiry mint e pid => some ([.keyBytes mint, .le64 e], pid)
  | .fpaAddrLit a s pid => some ([.keyBytes a, .lit s], pid)
  | .fpaLitMintExpiry s mint e pid => some ([.lit s, .keyBytes mint, .le64 e], pid)
  | .fpaLitAddr s a pid => some ([.lit s, .keyBytes a], pid)
  | _ => none

/-- src/src/lib.rs:20-24: seeds `[underlying_mint.to_bytes(), expiry_date.to_le_bytes()]`
under the caller-supplied `program_id`.  Note: no `"tokenizer"` literal. -/
def get_tokenizer_address (program_id underlying_mint : Pubkey) (expiry_date : Int) : Pubkey :=
  .fpaMintExpiry underlying_mint expiry_date program_id

/-- src/src/lib.rs:27-37: seeds `[tokenizer_address.to_bytes(), b"principal"]`
under the caller-supplied `program_id`. -/
def get_principal_mint_address (program_id tokenizer_address : Pubkey) : Pubkey :=
  .fpaAddrLit tokenizer_address "principal" program_id

/-- src/src/lib.rs:40-50: seeds `[tokenizer_address.to_bytes(), b"yield"]`
under the caller-supplied `program_id`. -/
def get_yield_mint_address (program_id tokenizer_address : Pubkey) : Pubkey :=
  .fpaAddrLit tokenizer_address "yield" program_id

/-- Spec §4.2/§6 (and src/program/src/lib.rs:15-22): position address from
seeds `["tokenizer", underlying_mint, le64(expiry_date)]` under this
program's id. -/
def spec_position_address (underlying_mint : Pubkey) (expiry_date : Int) : Pubkey :=
  .fpaLitMintExpiry "tokenizer" underlying_mint expiry_date .crateId

/-- Spec §4.2/§6 (and src/program/src/lib.rs:25-28): principal mint from
seeds `["principal", position]` under this program's id. -/
def spec_principal_mint_address (position : Pubkey) : Pubkey :=
  .fpaLitAddr "principal" position .crateId

/-- Spec §4.2/§6 (and src/program/src/lib.rs:31-34): yield mint from
seeds `["yield", position]` under this program's id. -/
def spec_yield_mint_address (position : Pubkey) : Pubkey :=
  .fpaLitAddr "yield" position .crateId

/-- Spec §4.2/§9: the position's own derivation seeds including the bump, as
they would have to be threaded through `invoke_signed` for the synthesized
signature to be valid for the position address. -/
def spec_position_signer_seeds (underlying_mint : Pubkey) (expiry_date : Int)
    (bump : Nat) : Seeds :=
  [.lit "tokenizer", .keyBytes underlying_mint, .le64 expiry_date, .bytes [bump]]

/-- The literal seeds `&[&b"lysergic-tokenizer"[..], &[0u8]]` that every
`invoke_signed` call in src/src/processor.rs passes. -/
def lysergic_signer_seeds : Seeds := [.lit "lysergic-tokenizer", .bytes [0]]

/-- The symbolic terms (both crates declare the same enum). -/
inductive Expiry where
  | TwelveMonths
  | EighteenMonths
  | TwentyFourMonths
  deriving DecidableEq

/-- src/program/src/lib.rs:44-50 and src/src/lib.rs:60-66 (identical). -/
def Expiry.to_seconds : Expiry → Int
  | .TwelveMonths => 31536000
  | .EighteenMonths => 47304000
  | .TwentyFourMonths => 63072000

/-- src/program/src/lib.rs:64-69: `let days = (ts + secs) / 86400; days * 86400`
with Rust `i64` division, which truncates toward zero (`Int.tdiv`). -/
def Expiry.to_expiry_date (e : Expiry) (ts : Int) : Option Int :=
  let expiry_timestamp := ts + e.to_seconds
  let days := expiry_timestamp.tdiv (24 * 60 * 60)
  some (days * (24 * 60 * 60))

/-- src/src/lib.rs:80-87, the variant the processor calls: chrono start-of-day
(UTC) of `Utc::now() + to_seconds`, i.e. floor division of the wall-clock
timestamp plus the term by 86400. -/
def Expiry.to_expiry_date_now (e : Expiry) (now : Int) : Option Int :=
  some ((Int.fdiv (now + e.to_seconds) 86400) * 86400)

/-- src/src/error.rs: the program's custom error kinds, in declaration order. -/
inductive LysergicTokenizerError where
  | InvalidInstruction
  | TokenizerAlreadyInitialized
  | TokenizerNotInitialized
  | InvalidUserAccount
  | IncorrectTokenizerAddress
  | InvalidExpiryDate
  | IncorrectVaultAddress
  | IncorrectUnderlyingMintAddress
  | IncorrectPrincipalMintAddress
  | IncorrectYieldMintAddress
  | ExpiryDateElapsed
  | ExpiryDateNotElapsed
  deriving DecidableEq

/-- Failure outcomes of a processor invocation.  `custom` wraps the program's
own error enum; the others are the `solana_program::program_error` variants
the processor returns.  `panic` is a Rust panic (an out-of-range slice): the
VM aborts — it is not a returned `ProgramError`. -/
inductive ProgErr where
  | custom (e : LysergicTokenizerError)
  | incorrectProgramId
  | missingRequiredSignature
  | notEnoughAccountKeys
  | invalidInstructionData
  | invalidAccountData
  | panic
  deriving DecidableEq

/-- src/src/state.rs:6: `1 + 32 + 32 + 32 + 32 + 32 + 8 + 8`
(the source comment says 184, the sum is 177). -/
def LYSERGIC_TOKENIZER_STATE_SIZE : Nat := 1 + 32 + 32 + 32 + 32 + 32 + 8 + 8

/-- src/src/state.rs:8-18: the persisted position record. -/
structure LysergicTokenizerState where
  bump : Nat
  authority : Pubkey
  principal_token_mint : Pubkey
  yield_token_mint : Pubkey
  underlying_mint : Pubkey
  underlying_vault : Pubkey
  expiry_date : Int
  fixed_apy : Nat
  deriving DecidableEq

/-- The record the initializer serializes into the position account
(src/src/processor.rs:227-237).  The source literal sets exactly these six
fields of `LysergicTokenizerState` — the struct's `bump` and `authority`
fields are missing from the literal (a slip in the source); we model exactly
the fields written. -/
structure PositionRecord where
  principal_token_mint : Pubkey
  yield_token_mint : Pubkey
  underlying_mint : Pubkey
  underlying_vault : Pubkey
  expiry_date : Int
  fixed_apy : Nat
  deriving DecidableEq

/-- One entry of the instruction's account list. `stored` is the borsh parse
of the leading `LYSERGIC_TOKENIZER_STATE_SIZE` bytes of the account data
(fixed-size plain data: the parse exists whenever the slice does). -/
structure AccountInfo where
  key : Pubkey
  owner : Pubkey
  is_signer : Bool
  data_len : Nat
  lamports : Nat
  stored : LysergicTokenizerState
  deriving DecidableEq

/-- Whether `LysergicTokenizerState::try_from_slice(&account.data.borrow()[..LYSERGIC_TOKENIZER_STATE_SIZE])`
panics: the slice expression is out of range when the account data is shorter
than the state size.  Otherwise the fixed-size parse succeeds and yields
`a.stored`; the handlers below inline that read as
`if a.read_panics then .error .panic else … a.stored …`. -/
def AccountInfo.read_panics (a : AccountInfo) : Bool :=
  a.data_len < LYSERGIC_TOKENIZER_STATE_SIZE

/-- Execution environment of one invocation: the clock reading and the
rent-exemption minimum for the fixed state size. -/
structure Env where
  now : Int
  rent_min : Nat

/-- `next_account_info`: the next account of the iterator and the remainder,
or `NotEnoughAccountKeys`. -/
def nextAccount : List AccountInfo → Except ProgErr (AccountInfo × List AccountInfo)
  | [] => .error .notEnoughAccountKeys
  | a :: rest => .ok (a, rest)

/-- Cross-program invocations and direct account mutations, recorded in
order.  `signer = some seeds` marks an `invoke_signed` with that (single)
signer seed list; `none` a plain `invoke`. -/
inductive Effect where
  | createAccount (funding new_account : Pubkey) (lamports space : Nat) (owner : Pubkey)
  | createAta (funding ata mint token_program_id : Pubkey)
  | initMint (token_program mint mint_authority : Pubkey) (decimals : Nat)
  | transfer (token_program source destination authority : Pubkey) (amount : Nat)
      (signer : Option Seeds)
  | mintTo (token_program mint destination authority : Pubkey) (amount : Nat)
      (signer : Option Seeds)
  | burn (token_program account mint owner : Pubkey) (amount : Nat)
      (signer : Option Seeds)
  | closeAccount (token_program account destination owner : Pubkey)
      (signer : Option Seeds)
  | sysTransfer (source destination : Pubkey) (lamports : Nat) (signer : Option Seeds)
  | writeState (record : PositionRecord)
  | assign (account new_owner : Pubkey)
  | realloc (account : Pubkey) (new_len : Nat)
  deriving DecidableEq

/-- The signer seed list of an effect, when it was issued via `invoke_signed`. -/
def Effect.signerSeeds : Effect → Option Seeds
  | .transfer _ _ _ _ _ s => s
  | .mintTo _ _ _ _ _ s => s
  | .burn _ _ _ _ _ s => s
  | .closeAccount _ _ _ _ s => s
  | .sysTransfer _ _ _ s => s
  | _ => none

/-- src/src/processor.rs:105-243.  Parameter names and order follow the Rust
signature: `(accounts, principal_token_mint, yield_token_mint, underlying_mint,
underlying_vault, expiry, fixed_apy)`. -/
def process_initialize_lysergic_tokenizer (accounts : List AccountInfo) (env : Env)
    (principal_token_mint yield_token_mint underlying_mint underlying_vault : Pubkey)
    (expiry : Expiry) (fixed_apy : Nat) : Except ProgErr (List Effect) :=
  match accounts with
  | lysergic_tokenizer_account :: authority :: underlying_vault_account ::
      underlying_mint_account :: token_program :: system_program :: _ =>
    match expiry.to_expiry_date_now env.now with
    | none => .error (.custom .InvalidExpiryDate)
    | some expiry_date =>
      if lysergic_tokenizer_account.key ≠
          get_tokenizer_address authority.key underlying_mint expiry_date then
        .error (.custom .IncorrectTokenizerAddress)
      else if ¬ authority.is_signer then
        .error .missingRequiredSignature
      else if underlying_vault_account.key ≠
          Pubkey.assoc lysergic_tokenizer_account.key underlying_mint then
        .error (.custom .IncorrectVaultAddress)
      else if underlying_mint ≠ underlying_mint_account.key then
        .error (.custom .IncorrectUnderlyingMintAddress)
      else if principal_token_mint ≠
          get_principal_mint_address lysergic_tokenizer_account.key underlying_mint then
        .error (.custom .IncorrectPrincipalMintAddress)
      else if yield_token_mint ≠
          get_yield_mint_address lysergic_tokenizer_account.key underlying_mint then
        .error (.custom .IncorrectYieldMintAddress)
      else if token_program.key ≠ Pubkey.splTokenId then
        .error .incorrectProgramId
      else if system_program.key ≠ Pubkey.systemProgramId then
        .error .incorrectProgramId
      else if lysergic_tokenizer_account.owner ≠ Pubkey.crateId then
        .ok [ .createAccount authority.key lysergic_tokenizer_account.key
                (max env.rent_min 1 - lysergic_tokenizer_account.lamports)
                LYSERGIC_TOKENIZER_STATE_SIZE Pubkey.crateId,
              .createAta authority.key underlying_vault_account.key underlying_mint
                token_program.key,
              .writeState ⟨principal_token_mint, yield_token_mint, underlying_mint,
                underlying_vault, expiry_date, fixed_apy⟩ ]
      else .error (.custom .TokenizerAlreadyInitialized)
  | _ => .error .notEnoughAccountKeys

/-- src/src/processor.rs:245-346. -/
def process_initialize_mints (accounts : List AccountInfo) (env : Env)
    (underlying_mint : Pubkey) (expiry : Expiry) : Except ProgErr (List Effect) :=
  match accounts with
  | lysergic_tokenizer_account :: authority :: underlying_mint_account ::
      principal_token_mint_account :: yield_token_mint_account :: token_program :: _ =>
    match expiry.to_expiry_date_now env.now with
    | none => .error (.custom .InvalidExpiryDate)
    | some expiry_date =>
      if lysergic_tokenizer_account.key ≠
          get_tokenizer_address token_program.key underlying_mint expiry_date then
        .error (.custom .IncorrectTokenizerAddress)
      else if ¬ authority.is_signer then
        .error .missingRequiredSignature
      else if token_program.key ≠ Pubkey.splTokenId then
        .error .incorrectProgramId
      else if lysergic_tokenizer_account.owner = Pubkey.crateId then
        if lysergic_tokenizer_account.read_panics then .error .panic
        else if lysergic_tokenizer_account.stored.principal_token_mint ≠
            principal_token_mint_account.key then
          .error (.custom .IncorrectPrincipalMintAddress)
        else if lysergic_tokenizer_account.stored.yield_token_mint ≠
            yield_token_mint_account.key then
          .error (.custom .IncorrectYieldMintAddress)
        else if lysergic_tokenizer_account.stored.underlying_mint ≠
            underlying_mint_account.key then
          .error (.custom .IncorrectUnderlyingMintAddress)
        else if lysergic_tokenizer_account.stored.expiry_date ≠ expiry_date then
          .error (.custom .InvalidExpiryDate)
        else if lysergic_tokenizer_account.stored.underlying_vault ≠
            Pubkey.assoc lysergic_tokenizer_account.key
              lysergic_tokenizer_account.stored.underlying_mint then
          .error (.custom .IncorrectVaultAddress)
        else
          .ok [ .initMint token_program.key principal_token_mint_account.key
                  lysergic_tokenizer_account.key 6,
                .initMint token_program.key yield_token_mint_account.key
                  lysergic_tokenizer_account.key 6 ]
      else if principal_token_mint_account.key ≠
          get_principal_mint_address token_program.key
            lysergic_tokenizer_account.key then
        .error (.custom .IncorrectPrincipalMintAddress)
      else if yield_token_mint_account.key ≠
          get_yield_mint_address token_program.key
            lysergic_tokenizer_account.key then
        .error (.custom .IncorrectYieldMintAddress)
      else
        .ok [ .initMint token_program.key principal_token_mint_account.key
                lysergic_tokenizer_account.key 6,
              .initMint token_program.key yield_token_mint_account.key
                lysergic_tokenizer_account.key 6 ]
  | _ => .error .notEnoughAccountKeys

/-- src/src/processor.rs:348-398.  Re-enters the two initializers with rebuilt
account slices (the 6-element slice for the tokenizer initializer omits the
underlying-mint account the callee expects at position 3). -/
def process_initialize_tokenizer_and_mints (accounts : List AccountInfo) (env : Env)
    (underlying_vault underlying_mint principal_token_mint yield_token_mint : Pubkey)
    (expiry : Expiry) (fixed_apy : Nat) : Except ProgErr (List Effect) :=
  match accounts with
  | lysergic_tokenizer_account :: authority :: underlying_vault_account ::
      underlying_mint_account :: principal_token_mint_account ::
      yield_token_mint_account :: token_program :: associated_token_account_program ::
      system_program :: _ =>
    match process_initialize_lysergic_tokenizer
        [lysergic_tokenizer_account, authority, underlying_vault_account, token_program,
          associated_token_account_program, system_program] env
        principal_token_mint yield_token_mint underlying_mint underlying_vault
        expiry fixed_apy with
    | .error e => .error e
    | .ok effs1 =>
      match process_initialize_mints
          [lysergic_tokenizer_account, underlying_mint_account,
            principal_token_mint_account, yield_token_mint_account, token_program] env
          underlying_mint expiry with
      | .error e => .error e
      | .ok effs2 => .ok (effs1 ++ effs2)
  | _ => .error .notEnoughAccountKeys

/-- src/src/processor.rs:400-457.  Note the state is deserialized before the
owner check, and there is no expiry gate. -/
def process_deposit_underlying (accounts : List AccountInfo) (env : Env) (amount : Nat) :
    Except ProgErr (List Effect) :=
  match accounts with
  | lysergic_tokenizer_account :: underlying_vault_account :: user_account ::
      user_underlying_token_account :: token_program :: _ =>
    if lysergic_tokenizer_account.read_panics then .error .panic
    else if lysergic_tokenizer_account.owner ≠ Pubkey.crateId then
      .error (.custom .TokenizerNotInitialized)
    else if underlying_vault_account.key ≠
        lysergic_tokenizer_account.stored.underlying_vault then
      .error (.custom .IncorrectVaultAddress)
    else if ¬ user_account.is_signer then
      .error .missingRequiredSignature
    else if user_underlying_token_account.key ≠
        Pubkey.assoc user_account.key
          lysergic_tokenizer_account.stored.underlying_mint then
      .error (.custom .InvalidUserAccount)
    else if token_program.key ≠ Pubkey.splTokenId then
      .error .incorrectProgramId
    else
      .ok [Effect.transfer token_program.key user_underlying_token_account.key
            underlying_vault_account.key user_account.key amount none]
  | _ => .error .notEnoughAccountKeys

/-- src/src/processor.rs:459-541. -/
def process_tokenize_principal (accounts : List AccountInfo) (env : Env) (amount : Nat) :
    Except ProgErr (List Effect) :=
  match accounts with
  | lysergic_tokenizer_account :: principal_token_mint_account :: user_account ::
      user_principal_token_account :: token_program :: rest =>
    if lysergic_tokenizer_account.owner ≠ Pubkey.crateId then
      .error (.custom .TokenizerNotInitialized)
    else if lysergic_tokenizer_account.read_panics then .error .panic
    else if lysergic_tokenizer_account.stored.expiry_date < env.now then
      .error (.custom .ExpiryDateElapsed)
    else if principal_token_mint_account.key ≠
        lysergic_tokenizer_account.stored.principal_token_mint then
      .error (.custom .IncorrectPrincipalMintAddress)
    else if user_principal_token_account.key ≠
        Pubkey.assoc user_account.key
          lysergic_tokenizer_account.stored.principal_token_mint then
      .error (.custom .InvalidUserAccount)
    else if token_program.key ≠ Pubkey.splTokenId then
      .error .incorrectProgramId
    else if user_principal_token_account.owner ≠ token_program.key then
      match rest with
      | [] => .error .notEnoughAccountKeys
      | system_program :: _ =>
        if system_program.key ≠ Pubkey.systemProgramId then
          .error .incorrectProgramId
        else
          .ok [Effect.createAta user_account.key user_principal_token_account.key
                lysergic_tokenizer_account.stored.principal_token_mint user_account.key,
               Effect.mintTo token_program.key principal_token_mint_account.key
                user_principal_token_account.key lysergic_tokenizer_account.key amount
                (some lysergic_signer_seeds)]
    else
      .ok [Effect.mintTo token_program.key principal_token_mint_account.key
            user_principal_token_account.key lysergic_tokenizer_account.key amount
            (some lysergic_signer_seeds)]
  | _ => .error .notEnoughAccountKeys

/-- src/src/processor.rs:543-624. -/
def process_tokenize_yield (accounts : List AccountInfo) (env : Env) (amount : Nat) :
    Except ProgErr (List Effect) :=
  match accounts with
  | lysergic_tokenizer_account :: yield_token_mint_account :: user_account ::
      user_yield_token_account :: token_program :: rest =>
    if lysergic_tokenizer_account.owner ≠ Pubkey.crateId then
      .error (.custom .TokenizerNotInitialized)
    else if lysergic_tokenizer_account.read_panics then .error .panic
    else if lysergic_tokenizer_account.stored.expiry_date < env.now then
      .error (.custom .ExpiryDateElapsed)
    else if yield_token_mint_account.key ≠
        lysergic_tokenizer_account.stored.yield_token_mint then
      .error (.custom .IncorrectYieldMintAddress)
    else if user_yield_token_account.key ≠
        Pubkey.assoc user_account.key
          lysergic_tokenizer_account.stored.yield_token_mint then
      .error (.custom .InvalidUserAccount)
    else if token_program.key ≠ Pubkey.splTokenId then
      .error .incorrectProgramId
    else if user_yield_token_account.owner ≠ token_program.key then
      match rest with
      | [] => .error .notEnoughAccountKeys
      | system_program :: _ =>
        if system_program.key ≠ Pubkey.systemProgramId then
          .error .incorrectProgramId
        else
          .ok [Effect.createAta user_account.key user_yield_token_account.key
                lysergic_tokenizer_account.stored.yield_token_mint user_account.key,
               Effect.mintTo token_program.key yield_token_mint_account.key
                user_yield_token_account.key lysergic_tokenizer_account.key amount
                (some lysergic_signer_seeds)]
    else
      .ok [Effect.mintTo token_program.key yield_token_mint_account.key
            user_yield_token_account.key lysergic_tokenizer_account.key amount
            (some lysergic_signer_seeds)]
  | _ => .error .notEnoughAccountKeys

/-- src/src/processor.rs:626-667: re-enters deposit and the two tokenizers
with rebuilt 5-element account slices. -/
def process_deposit_and_tokenize (accounts : List AccountInfo) (env : Env) (amount : Nat) :
    Except ProgErr (List Effect) :=
  match accounts with
  | lysergic_tokenizer_account :: underlying_vault_account ::
      principal_token_mint_account :: yield_token_mint_account :: user_account ::
      user_underlying_token_account :: user_principal_token_account ::
      user_yield_token_account :: token_program :: _ =>
    match process_deposit_underlying
        [lysergic_tokenizer_account, underlying_vault_account, user_account,
          user_underlying_token_account, token_program] env amount with
    | .error e => .error e
    | .ok effs1 =>
      match process_tokenize_principal
          [lysergic_tokenizer_account, principal_token_mint_account, user_account,
            user_principal_token_account, token_program] env amount with
      | .error e => .error e
      | .ok effs2 =>
        match process_tokenize_yield
            [lysergic_tokenizer_account, yield_token_mint_account, user_account,
              user_yield_token_account, token_program] env amount with
        | .error e => .error e
        | .ok effs3 => .ok (effs1 ++ effs2 ++ effs3)
  | _ => .error .notEnoughAccountKeys

/-- src/src/processor.rs:22-25. -/
inductive RedemptionMode where
  | Mature
  | PrincipalYield
  deriving DecidableEq

/-- src/src/processor.rs:717-841, checks and effects after the nine accounts
are read: the expiry gate runs only in `Mature` mode; the vault transfer's
destination is the user's principal-token account. -/
def redeem_principal_checks
    (lysergic_tokenizer_account underlying_vault_account underlying_mint_account
      principal_token_mint_account user_account user_underlying_token_account
      user_principal_token_account token_program system_program : AccountInfo)
    (env : Env) (redemption_mode : RedemptionMode) (amount : Nat) :
    Except ProgErr (List Effect) :=
    if lysergic_tokenizer_account.owner ≠ Pubkey.crateId then
      .error (.custom .TokenizerNotInitialized)
    else if lysergic_tokenizer_account.read_panics then .error .panic
    else if redemption_mode = .Mature ∧
        lysergic_tokenizer_account.stored.expiry_date ≥ env.now then
      .error (.custom .ExpiryDateNotElapsed)
    else if underlying_vault_account.key ≠
        lysergic_tokenizer_account.stored.underlying_vault then
      .error (.custom .IncorrectVaultAddress)
    else if underlying_mint_account.key ≠
        lysergic_tokenizer_account.stored.underlying_mint then
      .error (.custom .IncorrectUnderlyingMintAddress)
    else if principal_token_mint_account.key ≠
        lysergic_tokenizer_account.stored.principal_token_mint then
      .error (.custom .IncorrectPrincipalMintAddress)
    else if user_underlying_token_account.key ≠
        Pubkey.assoc user_account.key
          lysergic_tokenizer_account.stored.underlying_mint then
      .error (.custom .InvalidUserAccount)
    else if user_principal_token_account.key ≠
        Pubkey.assoc user_account.key
          lysergic_tokenizer_account.stored.principal_token_mint then
      .error (.custom .InvalidUserAccount)
    else if token_program.key ≠ Pubkey.splTokenId then
      .error .incorrectProgramId
    else if user_underlying_token_account.owner ≠ token_program.key then
      if system_program.key ≠ Pubkey.systemProgramId then
        .error .incorrectProgramId
      else
        .ok [Effect.createAta user_account.key user_underlying_token_account.key
              lysergic_tokenizer_account.stored.underlying_mint user_account.key,
             Effect.transfer token_program.key underlying_vault_account.key
              user_principal_token_account.key lysergic_tokenizer_account.key amount
              (some lysergic_signer_seeds),
             Effect.burn token_program.key user_principal_token_account.key
              principal_token_mint_account.key user_account.key amount none]
    else
      .ok [Effect.transfer token_program.key underlying_vault_account.key
            user_principal_token_account.key lysergic_tokenizer_account.key amount
            (some lysergic_signer_seeds),
           Effect.burn token_program.key user_principal_token_account.key
            principal_token_mint_account.key user_account.key amount none]

/-- src/src/processor.rs:717-841: reads nine accounts through the iterator,
then runs `redeem_principal_checks`. -/
def process_redeem_principal (accounts : List AccountInfo) (env : Env)
    (redemption_mode : RedemptionMode) (amount : Nat) : Except ProgErr (List Effect) :=
  match accounts with
  | lysergic_tokenizer_account :: underlying_vault_account :: underlying_mint_account ::
      principal_token_mint_account :: user_account :: rest1 =>
    match nextAccount rest1 with
    | .error e => .error e
    | .ok (user_underlying_token_account, rest2) =>
    match nextAccount rest2 with
    | .error e => .error e
    | .ok (user_principal_token_account, rest3) =>
    match nextAccount rest3 with
    | .error e => .error e
    | .ok (token_program, rest4) =>
    match nextAccount rest4 with
    | .error e => .error e
    | .ok (system_program, _) =>
      redeem_principal_checks lysergic_tokenizer_account underlying_vault_account
        underlying_mint_account principal_token_mint_account user_account
        user_underlying_token_account user_principal_token_account token_program
        system_program env redemption_mode amount
  | _ => .error .notEnoughAccountKeys

/-- src/src/processor.rs:713-715. -/
def process_redeem_mature_principal (accounts : List AccountInfo) (env : Env)
    (amount : Nat) : Except ProgErr (List Effect) :=
  process_redeem_principal accounts env .Mature amount

/-- src/src/processor.rs:843-954, checks and effects after the first eight
accounts are read (`rest` holds the remaining accounts for the lazy
system-program read).  No expiry gate; the vault transfer's destination is
the user's yield-token account. -/
def claim_yield_checks
    (lysergic_tokenizer_account underlying_vault_account underlying_mint_account
      yield_token_mint_account user_account user_underlying_token_account
      user_yield_token_account token_program : AccountInfo)
    (rest : List AccountInfo) (env : Env) (amount : Nat) :
    Except ProgErr (List Effect) :=
    if lysergic_tokenizer_account.owner ≠ Pubkey.crateId then
      .error (.custom .TokenizerNotInitialized)
    else if lysergic_tokenizer_account.read_panics then .error .panic
    else if underlying_vault_account.key ≠
        lysergic_tokenizer_account.stored.underlying_vault then
      .error (.custom .IncorrectVaultAddress)
    else if yield_token_mint_account.key ≠
        lysergic_tokenizer_account.stored.yield_token_mint then
      .error (.custom .IncorrectYieldMintAddress)
    else if user_underlying_token_account.key ≠
        Pubkey.assoc user_account.key
          lysergic_tokenizer_account.stored.underlying_mint then
      .error (.custom .InvalidUserAccount)
    else if user_yield_token_account.key ≠
        Pubkey.assoc user_account.key
          lysergic_tokenizer_account.stored.yield_token_mint then
      .error (.custom .InvalidUserAccount)
    else if token_program.key ≠ Pubkey.splTokenId then
      .error .incorrectProgramId
    else if user_underlying_token_account.owner ≠ token_program.key then
      match nextAccount rest with
      | .error e => .error e
      | .ok (system_program, _) =>
        if system_program.key ≠ Pubkey.systemProgramId then
          .error .incorrectProgramId
        else
          .ok [Effect.createAta user_account.key user_underlying_token_account.key
                lysergic_tokenizer_account.stored.underlying_mint user_account.key,
               Effect.transfer token_program.key underlying_vault_account.key
                user_yield_token_account.key lysergic_tokenizer_account.key amount
                (some lysergic_signer_seeds),
               Effect.burn token_program.key user_yield_token_account.key
                yield_token_mint_account.key user_account.key amount none]
    else
      .ok [Effect.transfer token_program.key underlying_vault_account.key
            user_yield_token_account.key lysergic_tokenizer_account.key amount
            (some lysergic_signer_seeds),
           Effect.burn token_program.key user_yield_token_account.key
            yield_token_mint_account.key user_account.key amount none]

/-- src/src/processor.rs:843-954: reads eight accounts through the iterator,
then runs `claim_yield_checks` with the remaining accounts. -/
def process_claim_yield (accounts : List AccountInfo) (env : Env) (amount : Nat) :
    Except ProgErr (List Effect) :=
  match accounts with
  | lysergic_tokenizer_account :: underlying_vault_account :: underlying_mint_account ::
      yield_token_mint_account :: user_account :: rest1 =>
    match nextAccount rest1 with
    | .error e => .error e
    | .ok (user_underlying_token_account, rest2) =>
    match nextAccount rest2 with
    | .error e => .error e
    | .ok (user_yield_token_account, rest3) =>
    match nextAccount rest3 with
    | .error e => .error e
    | .ok (token_program, rest) =>
      claim_yield_checks lysergic_tokenizer_account underlying_vault_account
        underlying_mint_account yield_token_mint_account user_account
        user_underlying_token_account user_yield_token_account token_program
        rest env amount
  | _ => .error .notEnoughAccountKeys

/-- src/src/processor.rs:669-711: reads ten accounts, then re-enters
`process_redeem_principal` with a rebuilt 7-element slice (the callee reads
nine accounts) and `process_claim_yield` with a rebuilt 8-element slice. -/
def process_redeem_principal_and_yield (accounts : List AccountInfo) (env : Env)
    (amount : Nat) : Except ProgErr (List Effect) :=
  match accounts with
  | lysergic_tokenizer_account :: underlying_vault_account :: underlying_mint_account ::
      principal_token_mint_account :: yield_token_mint_account :: user_account ::
      user_underlying_token_account :: user_principal_token_account ::
      user_yield_token_account :: token_program :: _ =>
    match process_redeem_principal
        [lysergic_tokenizer_account, underlying_vault_account, underlying_mint_account,
          principal_token_mint_account, user_account, user_principal_token_account,
          token_program] env .PrincipalYield amount with
    | .error e => .error e
    | .ok effs1 =>
      match process_claim_yield
          [lysergic_tokenizer_account, underlying_vault_account, underlying_mint_account,
            yield_token_mint_account, user_account, user_underlying_token_account,
            user_yield_token_account, token_program] env amount with
      | .error e => .error e
      | .ok effs2 => .ok (effs1 ++ effs2)
  | _ => .error .notEnoughAccountKeys

/-- src/src/processor.rs:989-1045.  No signer check on the authority; the
residual lamports are read from the account and forwarded (the borrow always
succeeds in the single-threaded model). -/
def process_terminate_lysergic_tokenizer (accounts : List AccountInfo) (env : Env) :
    Except ProgErr (List Effect) :=
  match accounts with
  | lysergic_tokenizer_account :: authority :: underlying_vault_account ::
      token_program :: system_program :: _ =>
    if lysergic_tokenizer_account.read_panics then .error .panic
    else if lysergic_tokenizer_account.stored.expiry_date ≥ env.now then
      .error (.custom .ExpiryDateNotElapsed)
    else
        .ok [ .closeAccount token_program.key underlying_vault_account.key
                authority.key lysergic_tokenizer_account.key
                (some lysergic_signer_seeds),
              .sysTransfer lysergic_tokenizer_account.key authority.key
                lysergic_tokenizer_account.lamports (some lysergic_signer_seeds),
              .assign lysergic_tokenizer_account.key Pubkey.systemProgramId,
              .realloc lysergic_tokenizer_account.key 0 ]
  | _ => .error .notEnoughAccountKeys

/-- src/src/processor.rs:1047-1114.  No signer check on the authority; the
final system transfer forwards the literal placeholder amount `0`. -/
def process_terminate_mints (accounts : List AccountInfo) (env : Env) :
    Except ProgErr (List Effect) :=
  match accounts with
  | lysergic_tokenizer_account :: authority :: principal_token_mint_account ::
      yield_token_mint_account :: token_program :: system_program :: _ =>
    if lysergic_tokenizer_account.read_panics then .error .panic
    else if lysergic_tokenizer_account.stored.expiry_date ≥ env.now then
      .error (.custom .ExpiryDateNotElapsed)
    else
        .ok [ .closeAccount token_program.key principal_token_mint_account.key
                authority.key lysergic_tokenizer_account.key
                (some lysergic_signer_seeds),
              .closeAccount token_program.key yield_token_mint_account.key
                authority.key lysergic_tokenizer_account.key
                (some lysergic_signer_seeds),
              .sysTransfer lysergic_tokenizer_account.key authority.key 0
                (some lysergic_signer_seeds) ]
  | _ => .error .notEnoughAccountKeys

/-- src/src/processor.rs:956-987: reads seven accounts and re-enters the two
terminators — passing the 5-element tokenizer slice to `process_terminate_mints`
(which reads six accounts) and the 6-element mint slice to
`process_terminate_lysergic_tokenizer`, i.e. the slices are swapped. -/
def process_terminate (accounts : List AccountInfo) (env : Env) :
    Except ProgErr (List Effect) :=
  match accounts with
  | lysergic_tokenizer_account :: authority :: underlying_vault_account ::
      principal_token_mint_account :: yield_token_mint_account :: token_program ::
      system_program :: _ =>
    match process_terminate_mints
        [lysergic_tokenizer_account, authority, underlying_vault_account,
          token_program, system_program] env with
    | .error e => .error e
    | .ok effs1 =>
      match process_terminate_lysergic_tokenizer
          [lysergic_tokenizer_account, authority, principal_token_mint_account,
            yield_token_mint_account, token_program, system_program] env with
      | .error e => .error e
      | .ok effs2 => .ok (effs1 ++ effs2)
  | _ => .error .notEnoughAccountKeys

/-- src/src/instruction.rs:14-238: the decoded instruction, variants and
parameters in declaration order. -/
inductive LysergicTokenizerInstruction where
  | InitializeLysergicTokenizer (underlying_vault underlying_mint principal_token_mint
      yield_token_mint : Pubkey) (expiry : Expiry) (fixed_apy : Nat)
  | InitializeMints (underlying_mint : Pubkey) (expiry : Expiry)
  | InitializeTokenizerAndMints (underlying_vault underlying_mint principal_token_mint
      yield_token_mint : Pubkey) (expiry : Expiry) (fixed_apy : Nat)
  | DepositUnderlying (amount : Nat)
  | TokenizePrincipal (amount : Nat)
  | TokenizeYield (amount : Nat)
  | DepositAndTokenize (amount : Nat)
  | RedeemPrincipalAndYield (amount : Nat)
  | RedeemMaturePrincipal (principal_amount : Nat)
  | ClaimYield (yield_amount : Nat)
  | Terminate
  | TerminateLysergicTokenizer
  | TerminateMints
  deriving DecidableEq

/-- src/src/processor.rs:30-103, on the already-decoded instruction.  The
`InitializeLysergicTokenizer` arm passes the destructured fields positionally
in the order `(underlying_vault, underlying_mint, principal_token_mint,
yield_token_mint)` into a handler whose parameters are declared in the order
`(principal_token_mint, yield_token_mint, underlying_mint, underlying_vault)`,
exactly as the source does. -/
def process (program_id : Pubkey) (instruction : LysergicTokenizerInstruction)
    (accounts : List AccountInfo) (env : Env) : Except ProgErr (List Effect) :=
  if program_id ≠ Pubkey.crateId then .error .incorrectProgramId
  else
    match instruction with
    | .InitializeLysergicTokenizer underlying_vault underlying_mint principal_token_mint
        yield_token_mint expiry fixed_apy =>
      process_initialize_lysergic_tokenizer accounts env underlying_vault underlying_mint
        principal_token_mint yield_token_mint expiry fixed_apy
    | .InitializeMints underlying_mint expiry =>
      process_initialize_mints accounts env underlying_mint expiry
    | .InitializeTokenizerAndMints underlying_vault underlying_mint principal_token_mint
        yield_token_mint expiry fixed_apy =>
      process_initialize_tokenizer_and_mints accounts env underlying_vault underlying_mint
        principal_token_mint yield_token_mint expiry fixed_apy
    | .DepositUnderlying amount => process_deposit_underlying accounts env amount
    | .TokenizePrincipal amount => process_tokenize_principal accounts env amount
    | .TokenizeYield amount => process_tokenize_yield accounts env amount
    | .DepositAndTokenize amount => process_deposit_and_tokenize accounts env amount
    | .RedeemPrincipalAndYield amount =>
      process_redeem_principal_and_yield accounts env amount
    | .RedeemMaturePrincipal principal_amount =>
      process_redeem_mature_principal accounts env principal_amount
    | .ClaimYield yield_amount => process_claim_yield accounts env yield_amount
    | .Terminate => process_terminate accounts env
    | .TerminateLysergicTokenizer => process_terminate_lysergic_tokenizer accounts env
    | .TerminateMints => process_terminate_mints accounts env

/-! ## Token-ledger semantics of the emitted effects

The external token primitive enforces balances: a transfer or burn fails when
the debited account lacks the amount, and closing a token account requires a
zero balance.  Minting and the non-token effects do not touch token balances.
Failure of any effect aborts the whole instruction (host rollback), so a
successful operation is one whose checks pass and whose effects all apply. -/

/-- Token balances, by account address. -/
def Ledger := Pubkey → Nat

/-- Debit `amt` at `src` and credit it at `dst` (sound when `amt ≤ L src`;
a self-transfer leaves the balance unchanged). -/
def Ledger.moveTo (L : Ledger) (src dst : Pubkey) (amt : Nat) : Ledger :=
  fun k => (if k = dst then amt else 0) + (L k - (if k = src then amt else 0))

/-- Apply one effect to the token ledger. -/
def applyEffect (L : Ledger) : Effect → Option Ledger
  | .transfer _ src dst _ amt _ =>
      if amt ≤ L src then some (L.moveTo src dst amt) else none
  | .mintTo _ _ dst _ amt _ =>
      some (fun k => if k = dst then L k + amt else L k)
  | .burn _ acc _ _ amt _ =>
      if amt ≤ L acc then some (fun k => if k = acc then L k - amt else L k) else none
  | .closeAccount _ acc _ _ _ => if L acc = 0 then some L else none
  | _ => some L

/-- Apply a list of effects left to right; `none` as soon as one fails. -/
def applyEffects (L : Ledger) : List Effect → Option Ledger
  | [] => some L
  | e :: rest =>
    match applyEffect L e with
    | none => none
    | some L1 => applyEffects L1 rest

/-- One invocation of a value-moving operation: its full account list, the
environment it ran under, and its amount argument. -/
inductive OpCall where
  | deposit (accounts : List AccountInfo) (env : Env) (amount : Nat)
  | tokenizePrincipal (accounts : List AccountInfo) (env : Env) (amount : Nat)
  | tokenizeYield (accounts : List AccountInfo) (env : Env) (amount : Nat)
  | depositAndTokenize (accounts : List AccountInfo) (env : Env) (amount : Nat)
  | redeemMaturePrincipal (accounts : List AccountInfo) (env : Env) (amount : Nat)
  | claimYield (accounts : List AccountInfo) (env : Env) (amount : Nat)
  | redeemPrincipalAndYield (accounts : List AccountInfo) (env : Env) (amount : Nat)

/-- The account list an op call supplies. -/
def OpCall.accounts : OpCall → List AccountInfo
  | .deposit a _ _ => a
  | .tokenizePrincipal a _ _ => a
  | .tokenizeYield a _ _ => a
  | .depositAndTokenize a _ _ => a
  | .redeemMaturePrincipal a _ _ => a
  | .claimYield a _ _ => a
  | .redeemPrincipalAndYield a _ _ => a

/-- Run the call through the corresponding processor handler. -/
def OpCall.run : OpCall → Except ProgErr (List Effect)
  | .deposit accounts env amount => process_deposit_underlying accounts env amount
  | .tokenizePrincipal accounts env amount => process_tokenize_principal accounts env amount
  | .tokenizeYield accounts env amount => process_tokenize_yield accounts env amount
  | .depositAndTokenize accounts env amount => process_deposit_and_tokenize accounts env amount
  | .redeemMaturePrincipal accounts env amount =>
      process_redeem_mature_principal accounts env amount
  | .claimYield accounts env amount => process_claim_yield accounts env amount
  | .redeemPrincipalAndYield accounts env amount =>
      process_redeem_principal_and_yield accounts env amount

/-- The call addresses the position whose record is `s`: its first account
(the position account every handler reads) stores `s`. -/
def OpCall.onPosition (c : OpCall) (s : LysergicTokenizerState) : Bool :=
  match c.accounts with
  | a :: _ => a.stored = s
  | [] => false

/-- A successful step on position `s`: the handler accepts and every emitted
effect applies to the ledger. -/
def runStep (s : LysergicTokenizerState) (L : Ledger) (c : OpCall) : Option Ledger :=
  if c.onPosition s then
    match c.run with
    | .error _ => none
    | .ok effs => applyEffects L effs
  else none

/-- A sequence of successful operations on the single position `s`. -/
def runTrace (s : LysergicTokenizerState) (L : Ledger) : List OpCall → Option Ledger
  | [] => some L
  | c :: rest =>
    match runStep s L c with
    | none => none
    | some L1 => runTrace s L1 rest

/-- Sum of the deposited amounts (Deposit and DepositAndTokenize). -/
def depositTotal : List OpCall → Nat
  | [] => 0
  | c :: rest =>
    (match c with
      | .deposit _ _ a => a
      | .depositAndTokenize _ _ a => a
      | _ => 0) + depositTotal rest

/-- Sum of the principal-redemption amounts (RedeemMaturePrincipal and the
principal leg of RedeemPrincipalAndYield). -/
def redemptionTotal : List OpCall → Nat
  | [] => 0
  | c :: rest =>
    (match c with
      | .redeemMaturePrincipal _ _ a => a
      | .redeemPrincipalAndYield _ _ a => a
      | _ => 0) + redemptionTotal rest

/-- Sum of the yield-claim amounts (ClaimYield and the yield leg of
RedeemPrincipalAndYield). -/
def yieldClaimTotal : List OpCall → Nat
  | [] => 0
  | c :: rest =>
    (match c with
      | .claimYield _ _ a => a
      | .redeemPrincipalAndYield _ _ a => a
      | _ => 0) + yieldClaimTotal rest

/-- The vault address is not aliased by any associated token account of the
position's three mints: for every wallet `u`, `assoc(u, mint)` differs from
the recorded vault.  These separation hypotheses are what the spec's account
model presumes (user accounts are distinct from the program's vault). -/
def VaultUnaliased (s : LysergicTokenizerState) : Prop :=
  ∀ u : Pubkey,
    Pubkey.assoc u s.underlying_mint ≠ s.underlying_vault ∧
    Pubkey.assoc u s.principal_token_mint ≠ s.underlying_vault ∧
    Pubkey.assoc u s.yield_token_mint ≠ s.underlying_vault

/-- Every signed effect of the list was signed with the processor's constant
seed list. -/
def OnlyLysergicSeeds (effs : List Effect) : Prop :=
  ∀ eff ∈ effs, ∀ sds, eff.signerSeeds = some sds → sds = lysergic_signer_seeds

theorem applyEffects_append (L : Ledger) (xs ys : List Effect) :
    applyEffects L (xs ++ ys) =
      match applyEffects L xs with
      | none => none
      | some L1 => applyEffects L1 ys := by
  induction xs generalizing L with
  | nil => rfl
  | cons e xs ih =>
    simp only [List.cons_append, applyEffects]
    cases applyEffect L e with
    | none => rfl
    | some L1 => exact ih L1

/-- `RedeemPrincipalAndYield` can never succeed: the rebuilt 7-element slice
is two accounts short of what `process_redeem_principal` reads. -/
theorem process_redeem_principal_and_yield_error (accounts : List AccountInfo)
    (env : Env) (amount : Nat) :
    process_redeem_principal_and_yield accounts env amount =
      .error .notEnoughAccountKeys := by
  rcases accounts with _ | ⟨a0, _ | ⟨a1, _ | ⟨a2, _ | ⟨a3, _ | ⟨a4, _ | ⟨a5, _ | ⟨a6,
    _ | ⟨a7, _ | ⟨a8, _ | ⟨a9, rest⟩⟩⟩⟩⟩⟩⟩⟩⟩⟩ <;> rfl

/-- The combined `Terminate` can never succeed: the 5-element slice it hands
to `process_terminate_mints` is one account short of what that handler reads. -/
theorem process_terminate_error (accounts : List AccountInfo) (env : Env) :
    process_terminate accounts env = .error .notEnoughAccountKeys := by
  rcases accounts with _ | ⟨a0, _ | ⟨a1, _ | ⟨a2, _ | ⟨a3, _ | ⟨a4, _ | ⟨a5,
    _ | ⟨a6, rest⟩⟩⟩⟩⟩⟩⟩ <;> rfl

/-- Inversion of `nextAccount`. -/
theorem nextAccount_ok {xs rest : List AccountInfo} {a : AccountInfo}
    (h : nextAccount xs = .ok (a, rest)) : xs = a :: rest := by
  cases xs with
  | nil => exact Except.noConfusion h
  | cons b tail =>
    simp only [nextAccount, Except.ok.injEq, Prod.mk.injEq] at h
    rw [h.1, h.2]

/-- Inversion of a successful deposit: the single emitted effect is the
transfer from the user's (checked) associated underlying account into the
(checked) vault. -/
theorem process_deposit_underlying_ok {tok vaultAcc user uuta tp : AccountInfo}
    {rest : List AccountInfo} {env : Env} {amount : Nat} {effs : List Effect}
    (h : process_deposit_underlying (tok :: vaultAcc :: user :: uuta :: tp :: rest)
        env amount = .ok effs) :
    effs = [Effect.transfer tp.key uuta.key vaultAcc.key user.key amount none] ∧
    vaultAcc.key = tok.stored.underlying_vault ∧
    uuta.key = Pubkey.assoc user.key tok.stored.underlying_mint := by
  simp only [process_deposit_underlying] at h
  split_ifs at h with hc1 hc2 hc3 hc4 hc5 hc6 <;> try exact Except.noConfusion h
  rw [not_not] at hc3 hc5
  injection h with h
  exact ⟨h.symm, hc3, hc5⟩

/-- Inversion of a successful principal tokenization: a mint-to of the amount
into the user's associated PT account, possibly preceded by its lazy
creation; the mint-to is signed with the constant seeds. -/
theorem process_tokenize_principal_ok {tok pmint user upt tp : AccountInfo}
    {rest : List AccountInfo} {env : Env} {amount : Nat} {effs : List Effect}
    (h : process_tokenize_principal (tok :: pmint :: user :: upt :: tp :: rest)
        env amount = .ok effs) :
    (effs = [Effect.mintTo tp.key pmint.key upt.key tok.key amount
        (some lysergic_signer_seeds)] ∨
      ∃ sys rest', rest = sys :: rest' ∧
        effs = [Effect.createAta user.key upt.key tok.stored.principal_token_mint
            user.key,
          Effect.mintTo tp.key pmint.key upt.key tok.key amount
            (some lysergic_signer_seeds)]) ∧
    upt.key = Pubkey.assoc user.key tok.stored.principal_token_mint := by
  simp only [process_tokenize_principal] at h
  split_ifs at h with hc1 hc2 hc3 hc4 hc5 hc6 hc7 <;> try exact Except.noConfusion h
  · rw [not_not] at hc5
    split at h <;> try exact Except.noConfusion h
    rename_i sys tail
    split_ifs at h with hc8 <;> try exact Except.noConfusion h
    injection h with h
    exact ⟨.inr ⟨sys, tail, rfl, h.symm⟩, hc5⟩
  · rw [not_not] at hc5
    injection h with h
    exact ⟨.inl h.symm, hc5⟩

/-- Inversion of a successful yield tokenization. -/
theorem process_tokenize_yield_ok {tok ymint user uyt tp : AccountInfo}
    {rest : List AccountInfo} {env : Env} {amount : Nat} {effs : List Effect}
    (h : process_tokenize_yield (tok :: ymint :: user :: uyt :: tp :: rest)
        env amount = .ok effs) :
    (effs = [Effect.mintTo tp.key ymint.key uyt.key tok.key amount
        (some lysergic_signer_seeds)] ∨
      ∃ sys rest', rest = sys :: rest' ∧
        effs = [Effect.createAta user.key uyt.key tok.stored.yield_token_mint
            user.key,
          Effect.mintTo tp.key ymint.key uyt.key tok.key amount
            (some lysergic_signer_seeds)]) ∧
    uyt.key = Pubkey.assoc user.key tok.stored.yield_token_mint := by
  simp only [process_tokenize_yield] at h
  split_ifs at h with hc1 hc2 hc3 hc4 hc5 hc6 hc7 <;> try exact Except.noConfusion h
  · rw [not_not] at hc5
    split at h <;> try exact Except.noConfusion h
    rename_i sys tail
    split_ifs at h with hc8 <;> try exact Except.noConfusion h
    injection h with h
    exact ⟨.inr ⟨sys, tail, rfl, h.symm⟩, hc5⟩
  · rw [not_not] at hc5
    injection h with h
    exact ⟨.inl h.symm, hc5⟩

set_option maxHeartbeats 2000000 in
/-- Inversion of a successful principal redemption (either mode): a signed
transfer of the amount out of the vault into the user's associated PT
account, then a burn of the amount from that PT account, possibly preceded by
lazy creation of the user's underlying account. -/
theorem process_redeem_principal_ok {tok vaultAcc umint pmint user uuta upt tp sys :
    AccountInfo} {rest : List AccountInfo} {env : Env} {mode : RedemptionMode}
    {amount : Nat} {effs : List Effect}
    (h : process_redeem_principal (tok :: vaultAcc :: umint :: pmint :: user ::
        uuta :: upt :: tp :: sys :: rest) env mode amount = .ok effs) :
    (effs = [Effect.transfer tp.key vaultAcc.key upt.key tok.key amount
        (some lysergic_signer_seeds),
       Effect.burn tp.key upt.key pmint.key user.key amount none] ∨
     effs = [Effect.createAta user.key uuta.key tok.stored.underlying_mint user.key,
       Effect.transfer tp.key vaultAcc.key upt.key tok.key amount
        (some lysergic_signer_seeds),
       Effect.burn tp.key upt.key pmint.key user.key amount none]) ∧
    vaultAcc.key = tok.stored.underlying_vault ∧
    upt.key = Pubkey.assoc user.key tok.stored.principal_token_mint := by
  replace h : redeem_principal_checks tok vaultAcc umint pmint user uuta upt tp sys
      env mode amount = .ok effs := h
  unfold redeem_principal_checks at h
  by_cases hc1 : tok.owner ≠ Pubkey.crateId
  · rw [if_pos hc1] at h; exact Except.noConfusion h
  rw [if_neg hc1] at h
  by_cases hc2 : tok.read_panics = true
  · rw [if_pos hc2] at h; exact Except.noConfusion h
  rw [if_neg hc2] at h
  by_cases hc3 : mode = RedemptionMode.Mature ∧ tok.stored.expiry_date ≥ env.now
  · rw [if_pos hc3] at h; exact Except.noConfusion h
  rw [if_neg hc3] at h
  by_cases hc4 : vaultAcc.key ≠ tok.stored.underlying_vault
  · rw [if_pos hc4] at h; exact Except.noConfusion h
  rw [if_neg hc4] at h
  by_cases hc5 : umint.key ≠ tok.stored.underlying_mint
  · rw [if_pos hc5] at h; exact Except.noConfusion h
  rw [if_neg hc5] at h
  by_cases hc6 : pmint.key ≠ tok.stored.principal_token_mint
  · rw [if_pos hc6] at h; exact Except.noConfusion h
  rw [if_neg hc6] at h
  by_cases hc7 : uuta.key ≠ Pubkey.assoc user.key tok.stored.underlying_mint
  · rw [if_pos hc7] at h; exact Except.noConfusion h
  rw [if_neg hc7] at h
  by_cases hc8 : upt.key ≠ Pubkey.assoc user.key tok.stored.principal_token_mint
  · rw [if_pos hc8] at h; exact Except.noConfusion h
  rw [if_neg hc8] at h
  by_cases hc9 : tp.key ≠ Pubkey.splTokenId
  · rw [if_pos hc9] at h; exact Except.noConfusion h
  rw [if_neg hc9] at h
  rw [not_not] at hc4 hc8
  by_cases hc10 : uuta.owner ≠ tp.key
  · rw [if_pos hc10] at h
    by_cases hc11 : sys.key ≠ Pubkey.systemProgramId
    · rw [if_pos hc11] at h; exact Except.noConfusion h
    rw [if_neg hc11] at h
    injection h with h
    exact ⟨.inr h.symm, hc4, hc8⟩
  · rw [if_neg hc10] at h
    injection h with h
    exact ⟨.inl h.symm, hc4, hc8⟩

set_option maxHeartbeats 2000000 in
/-- Inversion of a successful yield claim: a signed transfer of the amount
out of the vault into the user's associated YT account, then a burn of the
amount from that YT account, possibly preceded by lazy creation of the user's
underlying account.  There is no expiry condition. -/
theorem process_claim_yield_ok {tok vaultAcc umint ymint user uuta uyt tp :
    AccountInfo} {rest : List AccountInfo} {env : Env} {amount : Nat}
    {effs : List Effect}
    (h : process_claim_yield (tok :: vaultAcc :: umint :: ymint :: user ::
        uuta :: uyt :: tp :: rest) env amount = .ok effs) :
    (effs = [Effect.transfer tp.key vaultAcc.key uyt.key tok.key amount
        (some lysergic_signer_seeds),
       Effect.burn tp.key uyt.key ymint.key user.key amount none] ∨
      ∃ sys rest', rest = sys :: rest' ∧
        effs = [Effect.createAta user.key uuta.key tok.stored.underlying_mint
            user.key,
          Effect.transfer tp.key vaultAcc.key uyt.key tok.key amount
            (some lysergic_signer_seeds),
          Effect.burn tp.key uyt.key ymint.key user.key amount none]) ∧
    vaultAcc.key = tok.stored.underlying_vault ∧
    uyt.key = Pubkey.assoc user.key tok.stored.yield_token_mint := by
  replace h : claim_yield_checks tok vaultAcc umint ymint user uuta uyt tp rest
      env amount = .ok effs := h
  unfold claim_yield_checks at h
  by_cases hc1 : tok.owner ≠ Pubkey.crateId
  · rw [if_pos hc1] at h; exact Except.noConfusion h
  rw [if_neg hc1] at h
  by_cases hc2 : tok.read_panics = true
  · rw [if_pos hc2] at h; exact Except.noConfusion h
  rw [if_neg hc2] at h
  by_cases hc3 : vaultAcc.key ≠ tok.stored.underlying_vault
  · rw [if_pos hc3] at h; exact Except.noConfusion h
  rw [if_neg hc3] at h
  by_cases hc4 : ymint.key ≠ tok.stored.yield_token_mint
  · rw [if_pos hc4] at h; exact Except.noConfusion h
  rw [if_neg hc4] at h
  by_cases hc5 : uuta.key ≠ Pubkey.assoc user.key tok.stored.underlying_mint
  · rw [if_pos hc5] at h; exact Except.noConfusion h
  rw [if_neg hc5] at h
  by_cases hc6 : uyt.key ≠ Pubkey.assoc user.key tok.stored.yield_token_mint
  · rw [if_pos hc6] at h; exact Except.noConfusion h
  rw [if_neg hc6] at h
  by_cases hc7 : tp.key ≠ Pubkey.splTokenId
  · rw [if_pos hc7] at h; exact Except.noConfusion h
  rw [if_neg hc7] at h
  rw [not_not] at hc3 hc6
  by_cases hc8 : uuta.owner ≠ tp.key
  · rw [if_pos hc8] at h
    split at h <;> try exact Except.noConfusion h
    rename_i sys tail heq
    by_cases hc9 : sys.key ≠ Pubkey.systemProgramId
    · rw [if_pos hc9] at h; exact Except.noConfusion h
    rw [if_neg hc9] at h
    injection h with h
    exact ⟨.inr ⟨sys, tail, nextAccount_ok heq, h.symm⟩, hc3, hc6⟩
  · rw [if_neg hc8] at h
    injection h with h
    exact ⟨.inl h.symm, hc3, hc6⟩


/-- Creating an associated account does not move token balances. -/
theorem applyEffects_createAta_cons (L : Ledger) (a b c d : Pubkey)
    (es : List Effect) :
    applyEffects L (.createAta a b c d :: es) = applyEffects L es := rfl

/-- Balance change at `v` of a single inbound transfer whose destination is
`v` and whose source is elsewhere. -/
theorem applyEffects_transfer_in {L L' : Ledger} {tpk src dst auth : Pubkey}
    {amt : Nat} {sg : Option Seeds} {v : Pubkey}
    (h : applyEffects L [.transfer tpk src dst auth amt sg] = some L')
    (hdst : dst = v) (hsrc : v ≠ src) :
    L' v = L v + amt := by
  subst hdst
  simp only [applyEffects, applyEffect] at h
  split at h <;> try exact Option.noConfusion h
  rename_i L1 heq
  injection h with h
  subst h
  split at heq <;> try exact Option.noConfusion heq
  injection heq with heq
  subst heq
  have hne : dst ≠ src := hsrc
  simp [Ledger.moveTo, hne]
  omega

/-- Balance preservation at `v` of a single mint into an account other than
`v`. -/
theorem applyEffects_mintTo_other {L L' : Ledger} {tpk mint dst auth : Pubkey}
    {amt : Nat} {sg : Option Seeds} {v : Pubkey}
    (h : applyEffects L [.mintTo tpk mint dst auth amt sg] = some L')
    (hdst : v ≠ dst) :
    L' v = L v := by
  simp only [applyEffects, applyEffect] at h
  injection h with h
  subst h
  simp [hdst]

/-- Balance change at `v` of an outbound transfer from `v` followed by a burn
of another account: the vault loses exactly the transferred amount, and the
transfer's balance precondition bounds it. -/
theorem applyEffects_transfer_out_burn {L L' : Ledger}
    {tpk src dst auth : Pubkey} {amt : Nat} {sg : Option Seeds}
    {tpk2 acc mint owner : Pubkey} {amt2 : Nat} {sg2 : Option Seeds} {v : Pubkey}
    (h : applyEffects L [.transfer tpk src dst auth amt sg,
        .burn tpk2 acc mint owner amt2 sg2] = some L')
    (hsrc : src = v) (hdst : v ≠ dst) (hacc : v ≠ acc) :
    L v = L' v + amt := by
  subst hsrc
  simp only [applyEffects, applyEffect] at h
  split at h <;> try exact Option.noConfusion h
  rename_i L1 heq
  split at heq <;> try exact Option.noConfusion heq
  rename_i hle
  injection heq with heq
  subst heq
  split at h <;> try exact Option.noConfusion h
  rename_i L2 heq2
  injection h with h
  subst h
  split at heq2 <;> try exact Option.noConfusion heq2
  injection heq2 with heq2
  subst heq2
  have h1 : Ledger.moveTo L src dst amt src = L src - amt := by
    simp [Ledger.moveTo, hdst]
  simp [if_neg hacc, h1]
  omega


/-- Vault-balance change of a successful deposit's effects: the vault gains
the amount (the user's associated account is not the vault). -/
theorem deposit_effs_vault {s : LysergicTokenizerState} {L L' : Ledger}
    {tok vaultAcc user uuta tp : AccountInfo} {rest : List AccountInfo}
    {env : Env} {amount : Nat} {effs : List Effect}
    (hU : ∀ u, Pubkey.assoc u s.underlying_mint ≠ s.underlying_vault)
    (hpos : tok.stored = s)
    (hok : process_deposit_underlying (tok :: vaultAcc :: user :: uuta :: tp :: rest)
        env amount = .ok effs)
    (happ : applyEffects L effs = some L') :
    L' s.underlying_vault = L s.underlying_vault + amount := by
  obtain ⟨heffs, hvault, huuta⟩ := process_deposit_underlying_ok hok
  subst heffs
  rw [hpos] at hvault huuta
  exact applyEffects_transfer_in happ hvault
    (fun hh => hU user.key (by rw [← huuta]; exact hh.symm))

/-- Vault-balance preservation of a successful principal tokenization. -/
theorem tokenize_principal_effs_vault {s : LysergicTokenizerState} {L L' : Ledger}
    {tok pmint user upt tp : AccountInfo} {rest : List AccountInfo}
    {env : Env} {amount : Nat} {effs : List Effect}
    (hP : ∀ u, Pubkey.assoc u s.principal_token_mint ≠ s.underlying_vault)
    (hpos : tok.stored = s)
    (hok : process_tokenize_principal (tok :: pmint :: user :: upt :: tp :: rest)
        env amount = .ok effs)
    (happ : applyEffects L effs = some L') :
    L' s.underlying_vault = L s.underlying_vault := by
  obtain ⟨hcases, hupt⟩ := process_tokenize_principal_ok hok
  rw [hpos] at hupt
  have hne : s.underlying_vault ≠ upt.key :=
    fun hh => hP user.key (by rw [← hupt]; exact hh.symm)
  rcases hcases with heffs | ⟨sys, rest2, hrest, heffs⟩ <;> subst heffs
  · exact applyEffects_mintTo_other happ hne
  · rw [applyEffects_createAta_cons] at happ
    exact applyEffects_mintTo_other happ hne

/-- Vault-balance preservation of a successful yield tokenization. -/
theorem tokenize_yield_effs_vault {s : LysergicTokenizerState} {L L' : Ledger}
    {tok ymint user uyt tp : AccountInfo} {rest : List AccountInfo}
    {env : Env} {amount : Nat} {effs : List Effect}
    (hY : ∀ u, Pubkey.assoc u s.yield_token_mint ≠ s.underlying_vault)
    (hpos : tok.stored = s)
    (hok : process_tokenize_yield (tok :: ymint :: user :: uyt :: tp :: rest)
        env amount = .ok effs)
    (happ : applyEffects L effs = some L') :
    L' s.underlying_vault = L s.underlying_vault := by
  obtain ⟨hcases, huyt⟩ := process_tokenize_yield_ok hok
  rw [hpos] at huyt
  have hne : s.underlying_vault ≠ uyt.key :=
    fun hh => hY user.key (by rw [← huyt]; exact hh.symm)
  rcases hcases with heffs | ⟨sys, rest2, hrest, heffs⟩ <;> subst heffs
  · exact applyEffects_mintTo_other happ hne
  · rw [applyEffects_createAta_cons] at happ
    exact applyEffects_mintTo_other happ hne

/-- Vault-balance change of a successful principal redemption's effects (any
mode): the vault loses exactly the amount. -/
theorem redeem_effs_vault {s : LysergicTokenizerState} {L L' : Ledger}
    {tok vaultAcc umint pmint user uuta upt tp sys : AccountInfo}
    {rest : List AccountInfo} {env : Env} {mode : RedemptionMode} {amount : Nat}
    {effs : List Effect}
    (hP : ∀ u, Pubkey.assoc u s.principal_token_mint ≠ s.underlying_vault)
    (hpos : tok.stored = s)
    (hok : process_redeem_principal (tok :: vaultAcc :: umint :: pmint :: user ::
        uuta :: upt :: tp :: sys :: rest) env mode amount = .ok effs)
    (happ : applyEffects L effs = some L') :
    L s.underlying_vault = L' s.underlying_vault + amount := by
  obtain ⟨hcases, hvault, hupt⟩ := process_redeem_principal_ok hok
  rw [hpos] at hvault hupt
  have hne : s.underlying_vault ≠ upt.key :=
    fun hh => hP user.key (by rw [← hupt]; exact hh.symm)
  rcases hcases with heffs | heffs <;> subst heffs
  · exact applyEffects_transfer_out_burn happ hvault hne hne
  · rw [applyEffects_createAta_cons] at happ
    exact applyEffects_transfer_out_burn happ hvault hne hne

/-- Vault-balance change of a successful yield claim's effects: the vault
loses exactly the amount. -/
theorem claim_effs_vault {s : LysergicTokenizerState} {L L' : Ledger}
    {tok vaultAcc umint ymint user uuta uyt tp : AccountInfo}
    {rest : List AccountInfo} {env : Env} {amount : Nat} {effs : List Effect}
    (hY : ∀ u, Pubkey.assoc u s.yield_token_mint ≠ s.underlying_vault)
    (hpos : tok.stored = s)
    (hok : process_claim_yield (tok :: vaultAcc :: umint :: ymint :: user ::
        uuta :: uyt :: tp :: rest) env amount = .ok effs)
    (happ : applyEffects L effs = some L') :
    L s.underlying_vault = L' s.underlying_vault + amount := by
  obtain ⟨hcases, hvault, huyt⟩ := process_claim_yield_ok hok
  rw [hpos] at hvault huyt
  have hne : s.underlying_vault ≠ uyt.key :=
    fun hh => hY user.key (by rw [← huyt]; exact hh.symm)
  rcases hcases with heffs | ⟨sys, rest2, hrest, heffs⟩ <;> subst heffs
  · exact applyEffects_transfer_out_burn happ hvault hne hne
  · rw [applyEffects_createAta_cons] at happ
    exact applyEffects_transfer_out_burn happ hvault hne hne

/-- Inversion of a successful DepositAndTokenize: the three re-entered
sub-handlers all succeeded on the rebuilt 5-element slices and the effects
concatenate. -/
theorem process_deposit_and_tokenize_ok {a0 a1 a2 a3 a4 a5 a6 a7 a8 : AccountInfo}
    {rest : List AccountInfo} {env : Env} {amount : Nat} {effs : List Effect}
    (h : process_deposit_and_tokenize (a0 :: a1 :: a2 :: a3 :: a4 :: a5 :: a6 ::
        a7 :: a8 :: rest) env amount = .ok effs) :
    ∃ effs1 effs2 effs3, effs = effs1 ++ effs2 ++ effs3 ∧
      process_deposit_underlying [a0, a1, a4, a5, a8] env amount = .ok effs1 ∧
      process_tokenize_principal [a0, a2, a4, a6, a8] env amount = .ok effs2 ∧
      process_tokenize_yield [a0, a3, a4, a7, a8] env amount = .ok effs3 := by
  simp only [process_deposit_and_tokenize] at h
  split at h <;> try exact Except.noConfusion h
  rename_i effs1 heq1
  split at h <;> try exact Except.noConfusion h
  rename_i effs2 heq2
  split at h <;> try exact Except.noConfusion h
  rename_i effs3 heq3
  injection h with h
  exact ⟨effs1, effs2, effs3, h.symm, heq1, heq2, heq3⟩


/-- A successful Deposit step raises the vault balance by the amount. -/
theorem runStep_deposit {s : LysergicTokenizerState} {L L' : Ledger}
    {accounts : List AccountInfo} {env : Env} {amount : Nat}
    (hU : ∀ u, Pubkey.assoc u s.underlying_mint ≠ s.underlying_vault)
    (h : runStep s L (.deposit accounts env amount) = some L') :
    L' s.underlying_vault = L s.underlying_vault + amount := by
  rcases accounts with _ | ⟨a0, _ | ⟨a1, _ | ⟨a2, _ | ⟨a3, _ | ⟨a4, rest⟩⟩⟩⟩⟩
  iterate 5 simp [runStep, OpCall.onPosition, OpCall.accounts, OpCall.run,
      process_deposit_underlying] at h
  simp only [runStep, OpCall.onPosition, OpCall.accounts, OpCall.run] at h
  split at h <;> try exact Option.noConfusion h
  rename_i hpos
  rw [decide_eq_true_eq] at hpos
  split at h <;> try exact Option.noConfusion h
  rename_i effs heq
  exact deposit_effs_vault hU hpos heq h

/-- A successful TokenizePrincipal step leaves the vault balance unchanged. -/
theorem runStep_tokenize_principal {s : LysergicTokenizerState} {L L' : Ledger}
    {accounts : List AccountInfo} {env : Env} {amount : Nat}
    (hP : ∀ u, Pubkey.assoc u s.principal_token_mint ≠ s.underlying_vault)
    (h : runStep s L (.tokenizePrincipal accounts env amount) = some L') :
    L' s.underlying_vault = L s.underlying_vault := by
  rcases accounts with _ | ⟨a0, _ | ⟨a1, _ | ⟨a2, _ | ⟨a3, _ | ⟨a4, rest⟩⟩⟩⟩⟩
  iterate 5 simp [runStep, OpCall.onPosition, OpCall.accounts, OpCall.run,
      process_tokenize_principal] at h
  simp only [runStep, OpCall.onPosition, OpCall.accounts, OpCall.run] at h
  split at h <;> try exact Option.noConfusion h
  rename_i hpos
  rw [decide_eq_true_eq] at hpos
  split at h <;> try exact Option.noConfusion h
  rename_i effs heq
  exact tokenize_principal_effs_vault hP hpos heq h

/-- A successful TokenizeYield step leaves the vault balance unchanged. -/
theorem runStep_tokenize_yield {s : LysergicTokenizerState} {L L' : Ledger}
    {accounts : List AccountInfo} {env : Env} {amount : Nat}
    (hY : ∀ u, Pubkey.assoc u s.yield_token_mint ≠ s.underlying_vault)
    (h : runStep s L (.tokenizeYield accounts env amount) = some L') :
    L' s.underlying_vault = L s.underlying_vault := by
  rcases accounts with _ | ⟨a0, _ | ⟨a1, _ | ⟨a2, _ | ⟨a3, _ | ⟨a4, rest⟩⟩⟩⟩⟩
  iterate 5 simp [runStep, OpCall.onPosition, OpCall.accounts, OpCall.run,
      process_tokenize_yield] at h
  simp only [runStep, OpCall.onPosition, OpCall.accounts, OpCall.run] at h
  split at h <;> try exact Option.noConfusion h
  rename_i hpos
  rw [decide_eq_true_eq] at hpos
  split at h <;> try exact Option.noConfusion h
  rename_i effs heq
  exact tokenize_yield_effs_vault hY hpos heq h

/-- A successful DepositAndTokenize step raises the vault balance by the
amount (deposited once, then tokenized twice without touching the vault). -/
theorem runStep_deposit_and_tokenize {s : LysergicTokenizerState} {L L' : Ledger}
    {accounts : List AccountInfo} {env : Env} {amount : Nat}
    (hU : ∀ u, Pubkey.assoc u s.underlying_mint ≠ s.underlying_vault)
    (hP : ∀ u, Pubkey.assoc u s.principal_token_mint ≠ s.underlying_vault)
    (hY : ∀ u, Pubkey.assoc u s.yield_token_mint ≠ s.underlying_vault)
    (h : runStep s L (.depositAndTokenize accounts env amount) = some L') :
    L' s.underlying_vault = L s.underlying_vault + amount := by
  rcases accounts with _ | ⟨a0, _ | ⟨a1, _ | ⟨a2, _ | ⟨a3, _ | ⟨a4, _ | ⟨a5,
    _ | ⟨a6, _ | ⟨a7, _ | ⟨a8, rest⟩⟩⟩⟩⟩⟩⟩⟩⟩
  iterate 9 simp [runStep, OpCall.onPosition, OpCall.accounts, OpCall.run,
      process_deposit_and_tokenize] at h
  simp only [runStep, OpCall.onPosition, OpCall.accounts, OpCall.run] at h
  split at h <;> try exact Option.noConfusion h
  rename_i hpos
  rw [decide_eq_true_eq] at hpos
  split at h <;> try exact Option.noConfusion h
  rename_i effs heq
  obtain ⟨effs1, effs2, effs3, heffs, h1, h2, h3⟩ := process_deposit_and_tokenize_ok heq
  subst heffs
  rw [applyEffects_append] at h
  split at h <;> try exact Option.noConfusion h
  rename_i LA heqA
  rw [applyEffects_append] at heqA
  split at heqA <;> try exact Option.noConfusion heqA
  rename_i LB heqB
  have d1 := deposit_effs_vault hU hpos h1 heqB
  have d2 := tokenize_principal_effs_vault hP hpos h2 heqA
  have d3 := tokenize_yield_effs_vault hY hpos h3 h
  omega

/-- A successful RedeemMaturePrincipal step lowers the vault balance by
exactly the amount. -/
theorem runStep_redeem_mature {s : LysergicTokenizerState} {L L' : Ledger}
    {accounts : List AccountInfo} {env : Env} {amount : Nat}
    (hP : ∀ u, Pubkey.assoc u s.principal_token_mint ≠ s.underlying_vault)
    (h : runStep s L (.redeemMaturePrincipal accounts env amount) = some L') :
    L s.underlying_vault = L' s.underlying_vault + amount := by
  rcases accounts with _ | ⟨a0, _ | ⟨a1, _ | ⟨a2, _ | ⟨a3, _ | ⟨a4, _ | ⟨a5,
    _ | ⟨a6, _ | ⟨a7, _ | ⟨a8, rest⟩⟩⟩⟩⟩⟩⟩⟩⟩
  iterate 9 simp [runStep, OpCall.onPosition, OpCall.accounts, OpCall.run,
      process_redeem_mature_principal, process_redeem_principal, nextAccount] at h
  simp only [runStep, OpCall.onPosition, OpCall.accounts, OpCall.run,
    process_redeem_mature_principal] at h
  split at h <;> try exact Option.noConfusion h
  rename_i hpos
  rw [decide_eq_true_eq] at hpos
  split at h <;> try exact Option.noConfusion h
  rename_i effs heq
  exact redeem_effs_vault hP hpos heq h

/-- A successful ClaimYield step lowers the vault balance by exactly the
amount. -/
theorem runStep_claim_yield {s : LysergicTokenizerState} {L L' : Ledger}
    {accounts : List AccountInfo} {env : Env} {amount : Nat}
    (hY : ∀ u, Pubkey.assoc u s.yield_token_mint ≠ s.underlying_vault)
    (h : runStep s L (.claimYield accounts env amount) = some L') :
    L s.underlying_vault = L' s.underlying_vault + amount := by
  rcases accounts with _ | ⟨a0, _ | ⟨a1, _ | ⟨a2, _ | ⟨a3, _ | ⟨a4, _ | ⟨a5,
    _ | ⟨a6, _ | ⟨a7, rest⟩⟩⟩⟩⟩⟩⟩⟩
  iterate 8 simp [runStep, OpCall.onPosition, OpCall.accounts, OpCall.run,
      process_claim_yield, nextAccount] at h
  simp only [runStep, OpCall.onPosition, OpCall.accounts, OpCall.run] at h
  split at h <;> try exact Option.noConfusion h
  rename_i hpos
  rw [decide_eq_true_eq] at hpos
  split at h <;> try exact Option.noConfusion h
  rename_i effs heq
  exact claim_effs_vault hY hpos heq h

/-- A RedeemPrincipalAndYield step can never succeed. -/
theorem runStep_redeem_both (s : LysergicTokenizerState) (L : Ledger)
    (accounts : List AccountInfo) (env : Env) (amount : Nat) :
    runStep s L (.redeemPrincipalAndYield accounts env amount) = none := by
  simp [runStep, OpCall.run, process_redeem_principal_and_yield_error]

/-- Conservation of underlying along any successful trace on one position:
final vault balance plus everything redeemed and claimed equals the initial
vault balance plus everything deposited. -/
theorem runTrace_vault_conservation {s : LysergicTokenizerState}
    (hsafe : VaultUnaliased s) :
    ∀ (calls : List OpCall) (L0 L : Ledger), runTrace s L0 calls = some L →
      L s.underlying_vault + redemptionTotal calls + yieldClaimTotal calls
        = L0 s.underlying_vault + depositTotal calls := by
  have hU : ∀ u, Pubkey.assoc u s.underlying_mint ≠ s.underlying_vault :=
    fun u => (hsafe u).1
  have hP : ∀ u, Pubkey.assoc u s.principal_token_mint ≠ s.underlying_vault :=
    fun u => (hsafe u).2.1
  have hY : ∀ u, Pubkey.assoc u s.yield_token_mint ≠ s.underlying_vault :=
    fun u => (hsafe u).2.2
  intro calls
  induction calls with
  | nil =>
    intro L0 L h
    simp only [runTrace] at h
    injection h with h
    subst h
    simp [redemptionTotal, yieldClaimTotal, depositTotal]
  | cons c rest ih =>
    intro L0 L h
    simp only [runTrace] at h
    split at h <;> try exact Option.noConfusion h
    rename_i L1 heq
    have ih' := ih L1 L h
    cases c with
    | deposit accounts env amount =>
      have hd := runStep_deposit hU heq
      simp only [depositTotal, redemptionTotal, yieldClaimTotal] at ih' ⊢
      omega
    | tokenizePrincipal accounts env amount =>
      have hd := runStep_tokenize_principal hP heq
      simp only [depositTotal, redemptionTotal, yieldClaimTotal] at ih' ⊢
      omega
    | tokenizeYield accounts env amount =>
      have hd := runStep_tokenize_yield hY heq
      simp only [depositTotal, redemptionTotal, yieldClaimTotal] at ih' ⊢
      omega
    | depositAndTokenize accounts env amount =>
      have hd := runStep_deposit_and_tokenize hU hP hY heq
      simp only [depositTotal, redemptionTotal, yieldClaimTotal] at ih' ⊢
      omega
    | redeemMaturePrincipal accounts env amount =>
      have hd := runStep_redeem_mature hP heq
      simp only [depositTotal, redemptionTotal, yieldClaimTotal] at ih' ⊢
      omega
    | claimYield accounts env amount =>
      have hd := runStep_claim_yield hY heq
      simp only [depositTotal, redemptionTotal, yieldClaimTotal] at ih' ⊢
      omega
    | redeemPrincipalAndYield accounts env amount =>
      rw [runStep_redeem_both] at heq
      exact Option.noConfusion heq


/-- Inversion of a successful position initialization: every address binding
the handler enforced, and the emitted effects — account creation, vault
creation, and the state write whose record fields come from the handler's
parameters in the permuted dispatch order. -/
theorem process_initialize_lysergic_tokenizer_ok {a0 a1 a2 a3 a4 a5 : AccountInfo}
    {rest : List AccountInfo} {env : Env} {ptm ytm um uv : Pubkey}
    {expiry : Expiry} {apy : Nat} {effs : List Effect}
    (h : process_initialize_lysergic_tokenizer (a0 :: a1 :: a2 :: a3 :: a4 :: a5 :: rest)
        env ptm ytm um uv expiry apy = .ok effs) :
    a0.key = get_tokenizer_address a1.key um
      (Int.fdiv (env.now + expiry.to_seconds) 86400 * 86400) ∧
    a2.key = Pubkey.assoc a0.key um ∧
    ptm = get_principal_mint_address a0.key um ∧
    ytm = get_yield_mint_address a0.key um ∧
    a1.is_signer = true ∧
    effs = [Effect.createAccount a1.key a0.key (max env.rent_min 1 - a0.lamports)
        LYSERGIC_TOKENIZER_STATE_SIZE Pubkey.crateId,
      Effect.createAta a1.key a2.key um a4.key,
      Effect.writeState ⟨ptm, ytm, um, uv,
        Int.fdiv (env.now + expiry.to_seconds) 86400 * 86400, apy⟩] := by
  simp only [process_initialize_lysergic_tokenizer, Expiry.to_expiry_date_now] at h
  by_cases hc1 : a0.key ≠ get_tokenizer_address a1.key um
      (Int.fdiv (env.now + expiry.to_seconds) 86400 * 86400)
  · rw [if_pos hc1] at h; exact Except.noConfusion h
  rw [if_neg hc1] at h
  by_cases hc2 : ¬ a1.is_signer = true
  · rw [if_pos hc2] at h; exact Except.noConfusion h
  rw [if_neg hc2] at h
  by_cases hc3 : a2.key ≠ Pubkey.assoc a0.key um
  · rw [if_pos hc3] at h; exact Except.noConfusion h
  rw [if_neg hc3] at h
  by_cases hc4 : um ≠ a3.key
  · rw [if_pos hc4] at h; exact Except.noConfusion h
  rw [if_neg hc4] at h
  by_cases hc5 : ptm ≠ get_principal_mint_address a0.key um
  · rw [if_pos hc5] at h; exact Except.noConfusion h
  rw [if_neg hc5] at h
  by_cases hc6 : ytm ≠ get_yield_mint_address a0.key um
  · rw [if_pos hc6] at h; exact Except.noConfusion h
  rw [if_neg hc6] at h
  by_cases hc7 : a4.key ≠ Pubkey.splTokenId
  · rw [if_pos hc7] at h; exact Except.noConfusion h
  rw [if_neg hc7] at h
  by_cases hc8 : a5.key ≠ Pubkey.systemProgramId
  · rw [if_pos hc8] at h; exact Except.noConfusion h
  rw [if_neg hc8] at h
  rw [not_not] at hc1 hc3 hc5 hc6
  rw [not_not] at hc2
  by_cases hc9 : a0.owner ≠ Pubkey.crateId
  · rw [if_pos hc9] at h
    injection h with h
    exact ⟨hc1, hc3, hc5, hc6, hc2, h.symm⟩
  · rw [if_neg hc9] at h
    exact Except.noConfusion h

/-- Inversion of a successful mint initialization: whichever validation
branch ran, the effects are the two unsigned mint initializations with the
position as authority and decimals 6. -/
theorem process_initialize_mints_ok {a0 a1 a2 a3 a4 a5 : AccountInfo}
    {rest : List AccountInfo} {env : Env} {um : Pubkey} {expiry : Expiry}
    {effs : List Effect}
    (h : process_initialize_mints (a0 :: a1 :: a2 :: a3 :: a4 :: a5 :: rest)
        env um expiry = .ok effs) :
    effs = [Effect.initMint a5.key a3.key a0.key 6,
      Effect.initMint a5.key a4.key a0.key 6] := by
  simp only [process_initialize_mints, Expiry.to_expiry_date_now] at h
  by_cases hc1 : a0.key ≠ get_tokenizer_address a5.key um
      (Int.fdiv (env.now + expiry.to_seconds) 86400 * 86400)
  · rw [if_pos hc1] at h; exact Except.noConfusion h
  rw [if_neg hc1] at h
  by_cases hc2 : ¬ a1.is_signer = true
  · rw [if_pos hc2] at h; exact Except.noConfusion h
  rw [if_neg hc2] at h
  by_cases hc3 : a5.key ≠ Pubkey.splTokenId
  · rw [if_pos hc3] at h; exact Except.noConfusion h
  rw [if_neg hc3] at h
  by_cases hc4 : a0.owner = Pubkey.crateId
  · rw [if_pos hc4] at h
    by_cases hc5 : a0.read_panics = true
    · rw [if_pos hc5] at h; exact Except.noConfusion h
    rw [if_neg hc5] at h
    by_cases hc6 : a0.stored.principal_token_mint ≠ a3.key
    · rw [if_pos hc6] at h; exact Except.noConfusion h
    rw [if_neg hc6] at h
    by_cases hc7 : a0.stored.yield_token_mint ≠ a4.key
    · rw [if_pos hc7] at h; exact Except.noConfusion h
    rw [if_neg hc7] at h
    by_cases hc8 : a0.stored.underlying_mint ≠ a2.key
    · rw [if_pos hc8] at h; exact Except.noConfusion h
    rw [if_neg hc8] at h
    by_cases hc9 : a0.stored.expiry_date ≠
        Int.fdiv (env.now + expiry.to_seconds) 86400 * 86400
    · rw [if_pos hc9] at h; exact Except.noConfusion h
    rw [if_neg hc9] at h
    by_cases hc10 : a0.stored.underlying_vault ≠
        Pubkey.assoc a0.key a0.stored.underlying_mint
    · rw [if_pos hc10] at h; exact Except.noConfusion h
    rw [if_neg hc10] at h
    injection h with h
    exact h.symm
  · rw [if_neg hc4] at h
    by_cases hc5 : a3.key ≠ get_principal_mint_address a5.key a0.key
    · rw [if_pos hc5] at h; exact Except.noConfusion h
    rw [if_neg hc5] at h
    by_cases hc6 : a4.key ≠ get_yield_mint_address a5.key a0.key
    · rw [if_pos hc6] at h; exact Except.noConfusion h
    rw [if_neg hc6] at h
    injection h with h
    exact h.symm

/-- Inversion of a successful TerminateLysergicTokenizer: no signer check ran;
the expiry gate passed strictly; the effects close the vault, forward the
account's lamports and clear the account, all signed with the constant seeds. -/
theorem process_terminate_lysergic_tokenizer_ok {a0 a1 a2 a3 a4 : AccountInfo}
    {rest : List AccountInfo} {env : Env} {effs : List Effect}
    (h : process_terminate_lysergic_tokenizer (a0 :: a1 :: a2 :: a3 :: a4 :: rest)
        env = .ok effs) :
    effs = [Effect.closeAccount a3.key a2.key a1.key a0.key
        (some lysergic_signer_seeds),
      Effect.sysTransfer a0.key a1.key a0.lamports (some lysergic_signer_seeds),
      Effect.assign a0.key Pubkey.systemProgramId,
      Effect.realloc a0.key 0] ∧
    a0.stored.expiry_date < env.now := by
  simp only [process_terminate_lysergic_tokenizer] at h
  split_ifs at h with hc1 hc2 <;> try exact Except.noConfusion h
  injection h with h
  exact ⟨h.symm, lt_of_not_ge hc2⟩

/-- Inversion of a successful TerminateMints: no signer check ran; the expiry
gate passed strictly; the effects close both mints and transfer the literal
placeholder `0` lamports, all signed with the constant seeds. -/
theorem process_terminate_mints_ok {a0 a1 a2 a3 a4 a5 : AccountInfo}
    {rest : List AccountInfo} {env : Env} {effs : List Effect}
    (h : process_terminate_mints (a0 :: a1 :: a2 :: a3 :: a4 :: a5 :: rest)
        env = .ok effs) :
    effs = [Effect.closeAccount a4.key a2.key a1.key a0.key
        (some lysergic_signer_seeds),
      Effect.closeAccount a4.key a3.key a1.key a0.key (some lysergic_signer_seeds),
      Effect.sysTransfer a0.key a1.key 0 (some lysergic_signer_seeds)] ∧
    a0.stored.expiry_date < env.now := by
  simp only [process_terminate_mints] at h
  split_ifs at h with hc1 hc2 <;> try exact Except.noConfusion h
  injection h with h
  exact ⟨h.symm, lt_of_not_ge hc2⟩


theorem OnlyLysergicSeeds.append {xs ys : List Effect}
    (hx : OnlyLysergicSeeds xs) (hy : OnlyLysergicSeeds ys) :
    OnlyLysergicSeeds (xs ++ ys) := by
  intro eff hm sds hs
  rcases List.mem_append.mp hm with hmem | hmem
  · exact hx eff hmem sds hs
  · exact hy eff hmem sds hs

theorem init_only_lysergic_seeds {accounts : List AccountInfo} {env : Env}
    {ptm ytm um uv : Pubkey} {expiry : Expiry} {apy : Nat} {effs : List Effect}
    (h : process_initialize_lysergic_tokenizer accounts env ptm ytm um uv expiry apy
      = .ok effs) : OnlyLysergicSeeds effs := by
  rcases accounts with _ | ⟨a0, _ | ⟨a1, _ | ⟨a2, _ | ⟨a3, _ | ⟨a4, _ | ⟨a5, rest⟩⟩⟩⟩⟩⟩
  iterate 6 simp [process_initialize_lysergic_tokenizer, Expiry.to_expiry_date_now] at h
  obtain ⟨-, -, -, -, -, heffs⟩ := process_initialize_lysergic_tokenizer_ok h
  subst heffs
  simp [OnlyLysergicSeeds, Effect.signerSeeds]

theorem init_mints_only_lysergic_seeds {accounts : List AccountInfo} {env : Env}
    {um : Pubkey} {expiry : Expiry} {effs : List Effect}
    (h : process_initialize_mints accounts env um expiry = .ok effs) :
    OnlyLysergicSeeds effs := by
  rcases accounts with _ | ⟨a0, _ | ⟨a1, _ | ⟨a2, _ | ⟨a3, _ | ⟨a4, _ | ⟨a5, rest⟩⟩⟩⟩⟩⟩
  iterate 6 simp [process_initialize_mints, Expiry.to_expiry_date_now] at h
  have heffs := process_initialize_mints_ok h
  subst heffs
  simp [OnlyLysergicSeeds, Effect.signerSeeds]

/-- `InitializeTokenizerAndMints` hands `process_initialize_mints` a rebuilt
5-element slice while that handler reads six accounts, so it can in fact
never succeed; the seeds property holds trivially. -/
theorem init_both_only_lysergic_seeds {accounts : List AccountInfo} {env : Env}
    {uv um ptm ytm : Pubkey} {expiry : Expiry} {apy : Nat} {effs : List Effect}
    (h : process_initialize_tokenizer_and_mints accounts env uv um ptm ytm expiry apy
      = .ok effs) : OnlyLysergicSeeds effs := by
  rcases accounts with _ | ⟨a0, _ | ⟨a1, _ | ⟨a2, _ | ⟨a3, _ | ⟨a4, _ | ⟨a5,
    _ | ⟨a6, _ | ⟨a7, _ | ⟨a8, rest⟩⟩⟩⟩⟩⟩⟩⟩⟩
  iterate 9 simp [process_initialize_tokenizer_and_mints] at h
  simp only [process_initialize_tokenizer_and_mints] at h
  split at h <;> try exact Except.noConfusion h

theorem deposit_only_lysergic_seeds {accounts : List AccountInfo} {env : Env}
    {amount : Nat} {effs : List Effect}
    (h : process_deposit_underlying accounts env amount = .ok effs) :
    OnlyLysergicSeeds effs := by
  rcases accounts with _ | ⟨a0, _ | ⟨a1, _ | ⟨a2, _ | ⟨a3, _ | ⟨a4, rest⟩⟩⟩⟩⟩
  iterate 5 simp [process_deposit_underlying] at h
  obtain ⟨heffs, -, -⟩ := process_deposit_underlying_ok h
  subst heffs
  simp [OnlyLysergicSeeds, Effect.signerSeeds]

theorem tokenize_principal_only_lysergic_seeds {accounts : List AccountInfo}
    {env : Env} {amount : Nat} {effs : List Effect}
    (h : process_tokenize_principal accounts env amount = .ok effs) :
    OnlyLysergicSeeds effs := by
  rcases accounts with _ | ⟨a0, _ | ⟨a1, _ | ⟨a2, _ | ⟨a3, _ | ⟨a4, rest⟩⟩⟩⟩⟩
  iterate 5 simp [process_tokenize_principal] at h
  obtain ⟨hcases, -⟩ := process_tokenize_principal_ok h
  rcases hcases with heffs | ⟨sys, rest2, -, heffs⟩ <;> subst heffs <;>
    simp [OnlyLysergicSeeds, Effect.signerSeeds]

theorem tokenize_yield_only_lysergic_seeds {accounts : List AccountInfo}
    {env : Env} {amount : Nat} {effs : List Effect}
    (h : process_tokenize_yield accounts env amount = .ok effs) :
    OnlyLysergicSeeds effs := by
  rcases accounts with _ | ⟨a0, _ | ⟨a1, _ | ⟨a2, _ | ⟨a3, _ | ⟨a4, rest⟩⟩⟩⟩⟩
  iterate 5 simp [process_tokenize_yield] at h
  obtain ⟨hcases, -⟩ := process_tokenize_yield_ok h
  rcases hcases with heffs | ⟨sys, rest2, -, heffs⟩ <;> subst heffs <;>
    simp [OnlyLysergicSeeds, Effect.signerSeeds]

theorem deposit_and_tokenize_only_lysergic_seeds {accounts : List AccountInfo}
    {env : Env} {amount : Nat} {effs : List Effect}
    (h : process_deposit_and_tokenize accounts env amount = .ok effs) :
    OnlyLysergicSeeds effs := by
  rcases accounts with _ | ⟨a0, _ | ⟨a1, _ | ⟨a2, _ | ⟨a3, _ | ⟨a4, _ | ⟨a5,
    _ | ⟨a6, _ | ⟨a7, _ | ⟨a8, rest⟩⟩⟩⟩⟩⟩⟩⟩⟩
  iterate 9 simp [process_deposit_and_tokenize, process_deposit_underlying] at h
  obtain ⟨effs1, effs2, effs3, heffs, h1, h2, h3⟩ := process_deposit_and_tokenize_ok h
  subst heffs
  exact .append (.append (deposit_only_lysergic_seeds h1)
    (tokenize_principal_only_lysergic_seeds h2)) (tokenize_yield_only_lysergic_seeds h3)

theorem redeem_principal_only_lysergic_seeds {accounts : List AccountInfo}
    {env : Env} {mode : RedemptionMode} {amount : Nat} {effs : List Effect}
    (h : process_redeem_principal accounts env mode amount = .ok effs) :
    OnlyLysergicSeeds effs := by
  rcases accounts with _ | ⟨a0, _ | ⟨a1, _ | ⟨a2, _ | ⟨a3, _ | ⟨a4, _ | ⟨a5,
    _ | ⟨a6, _ | ⟨a7, _ | ⟨a8, rest⟩⟩⟩⟩⟩⟩⟩⟩⟩
  iterate 9 simp [process_redeem_principal, nextAccount] at h
  obtain ⟨hcases, -, -⟩ := process_redeem_principal_ok h
  rcases hcases with heffs | heffs <;> subst heffs <;>
    simp [OnlyLysergicSeeds, Effect.signerSeeds]

theorem claim_yield_only_lysergic_seeds {accounts : List AccountInfo}
    {env : Env} {amount : Nat} {effs : List Effect}
    (h : process_claim_yield accounts env amount = .ok effs) :
    OnlyLysergicSeeds effs := by
  rcases accounts with _ | ⟨a0, _ | ⟨a1, _ | ⟨a2, _ | ⟨a3, _ | ⟨a4, _ | ⟨a5,
    _ | ⟨a6, _ | ⟨a7, rest⟩⟩⟩⟩⟩⟩⟩⟩
  iterate 8 simp [process_claim_yield, nextAccount] at h
  obtain ⟨hcases, -, -⟩ := process_claim_yield_ok h
  rcases hcases with heffs | ⟨sys, rest2, -, heffs⟩ <;> subst heffs <;>
    simp [OnlyLysergicSeeds, Effect.signerSeeds]

theorem terminate_lysergic_only_lysergic_seeds {accounts : List AccountInfo}
    {env : Env} {effs : List Effect}
    (h : process_terminate_lysergic_tokenizer accounts env = .ok effs) :
    OnlyLysergicSeeds effs := by
  rcases accounts with _ | ⟨a0, _ | ⟨a1, _ | ⟨a2, _ | ⟨a3, _ | ⟨a4, rest⟩⟩⟩⟩⟩
  iterate 5 simp [process_terminate_lysergic_tokenizer] at h
  obtain ⟨heffs, -⟩ := process_terminate_lysergic_tokenizer_ok h
  subst heffs
  simp [OnlyLysergicSeeds, Effect.signerSeeds]

theorem terminate_mints_only_lysergic_seeds {accounts : List AccountInfo}
    {env : Env} {effs : List Effect}
    (h : process_terminate_mints accounts env = .ok effs) :
    OnlyLysergicSeeds effs := by
  rcases accounts with _ | ⟨a0, _ | ⟨a1, _ | ⟨a2, _ | ⟨a3, _ | ⟨a4, _ | ⟨a5, rest⟩⟩⟩⟩⟩⟩
  iterate 6 simp [process_terminate_mints] at h
  obtain ⟨heffs, -⟩ := process_terminate_mints_ok h
  subst heffs
  simp [OnlyLysergicSeeds, Effect.signerSeeds]

/-- Every signed cross-program call of every instruction is signed with the
constant seeds `["lysergic-tokenizer", [0]]`. -/
theorem process_only_lysergic_seeds {pid : Pubkey}
    {instr : LysergicTokenizerInstruction} {accounts : List AccountInfo}
    {env : Env} {effs : List Effect}
    (h : process pid instr accounts env = .ok effs) :
    OnlyLysergicSeeds effs := by
  unfold process at h
  by_cases hpid : pid ≠ Pubkey.crateId
  · rw [if_pos hpid] at h; exact Except.noConfusion h
  rw [if_neg hpid] at h
  cases instr with
  | InitializeLysergicTokenizer uv um ptm ytm expiry apy =>
    exact init_only_lysergic_seeds h
  | InitializeMints um expiry => exact init_mints_only_lysergic_seeds h
  | InitializeTokenizerAndMints uv um ptm ytm expiry apy =>
    exact init_both_only_lysergic_seeds h
  | DepositUnderlying amount => exact deposit_only_lysergic_seeds h
  | TokenizePrincipal amount => exact tokenize_principal_only_lysergic_seeds h
  | TokenizeYield amount => exact tokenize_yield_only_lysergic_seeds h
  | DepositAndTokenize amount => exact deposit_and_tokenize_only_lysergic_seeds h
  | RedeemPrincipalAndYield amount =>
    have h2 : process_redeem_principal_and_yield accounts env amount = .ok effs := h
    rw [process_redeem_principal_and_yield_error] at h2
    exact Except.noConfusion h2
  | RedeemMaturePrincipal amount => exact redeem_principal_only_lysergic_seeds h
  | ClaimYield amount => exact claim_yield_only_lysergic_seeds h
  | Terminate =>
    have h2 : process_terminate accounts env = .ok effs := h
    rw [process_terminate_error] at h2
    exact Except.noConfusion h2
  | TerminateLysergicTokenizer => exact terminate_lysergic_only_lysergic_seeds h
  | TerminateMints => exact terminate_mints_only_lysergic_seeds h


/-- The Mature-mode expiry gate: on an initialized, readable position whose
recorded expiry has not passed (`now ≤ expiry_date`, the code's `>=`
comparison), RedeemMaturePrincipal fails with `ExpiryDateNotElapsed`. -/
theorem redeem_mature_gate {a0 a1 a2 a3 a4 a5 a6 a7 a8 : AccountInfo}
    {rest : List AccountInfo} {env : Env} {amount : Nat}
    (howner : a0.owner = Pubkey.crateId) (hlen : ¬ a0.read_panics = true)
    (hexp : env.now ≤ a0.stored.expiry_date) :
    process_redeem_mature_principal (a0 :: a1 :: a2 :: a3 :: a4 :: a5 :: a6 :: a7 ::
      a8 :: rest) env amount = .error (.custom .ExpiryDateNotElapsed) := by
  show redeem_principal_checks a0 a1 a2 a3 a4 a5 a6 a7 a8 env .Mature amount = _
  unfold redeem_principal_checks
  rw [if_neg (fun hh => hh howner), if_neg hlen, if_pos ⟨rfl, hexp⟩]

/-- The TerminateLysergicTokenizer expiry gate. -/
theorem terminate_lysergic_gate {a0 a1 a2 a3 a4 : AccountInfo}
    {rest : List AccountInfo} {env : Env}
    (hlen : ¬ a0.read_panics = true) (hexp : env.now ≤ a0.stored.expiry_date) :
    process_terminate_lysergic_tokenizer (a0 :: a1 :: a2 :: a3 :: a4 :: rest) env =
      .error (.custom .ExpiryDateNotElapsed) := by
  simp only [process_terminate_lysergic_tokenizer]
  rw [if_neg hlen, if_pos hexp]

/-- The TerminateMints expiry gate. -/
theorem terminate_mints_gate {a0 a1 a2 a3 a4 a5 : AccountInfo}
    {rest : List AccountInfo} {env : Env}
    (hlen : ¬ a0.read_panics = true) (hexp : env.now ≤ a0.stored.expiry_date) :
    process_terminate_mints (a0 :: a1 :: a2 :: a3 :: a4 :: a5 :: rest) env =
      .error (.custom .ExpiryDateNotElapsed) := by
  simp only [process_terminate_mints]
  rw [if_neg hlen, if_pos hexp]

/-! ## Concrete example inputs

A position record over named external keys, the canonical accounts the
client builder would supply, and environments before, at and after the
recorded expiry. -/

/-- A position record for the examples: expiry at unix time 86400. -/
def exState : LysergicTokenizerState :=
  ⟨0, .named "authority", .named "pt-mint", .named "yt-mint", .named "u-mint",
    .named "vault", 86400, 0⟩

/-- Filler parse for accounts whose data is not a position record. -/
def blankState : LysergicTokenizerState :=
  ⟨0, .named "blank", .named "blank", .named "blank", .named "blank",
    .named "blank", 0, 0⟩

/-- The initialized position account holding `exState`. -/
def posAccount : AccountInfo :=
  ⟨.named "position", .crateId, false, LYSERGIC_TOKENIZER_STATE_SIZE, 5000, exState⟩

/-- The position account with its data truncated to zero bytes. -/
def shortPosAccount : AccountInfo :=
  ⟨.named "position", .crateId, false, 0, 5000, exState⟩

/-- The authority, with a choice of signer flag. -/
def authorityAccount (sgn : Bool) : AccountInfo :=
  ⟨.named "authority", .systemProgramId, sgn, 0, 10, blankState⟩

def userAccount : AccountInfo :=
  ⟨.named "user", .systemProgramId, true, 0, 10, blankState⟩

def vaultAccount : AccountInfo := ⟨.named "vault", .splTokenId, false, 165, 10, blankState⟩

def umintAccount : AccountInfo := ⟨.named "u-mint", .splTokenId, false, 82, 10, blankState⟩

def pmintAccount : AccountInfo := ⟨.named "pt-mint", .splTokenId, false, 82, 10, blankState⟩

def ymintAccount : AccountInfo := ⟨.named "yt-mint", .splTokenId, false, 82, 10, blankState⟩

def userUnderlyingAta : AccountInfo :=
  ⟨.assoc (.named "user") (.named "u-mint"), .splTokenId, false, 165, 10, blankState⟩

def userPrincipalAta : AccountInfo :=
  ⟨.assoc (.named "user") (.named "pt-mint"), .splTokenId, false, 165, 10, blankState⟩

def userYieldAta : AccountInfo :=
  ⟨.assoc (.named "user") (.named "yt-mint"), .splTokenId, false, 165, 10, blankState⟩

def tokenProgramAccount : AccountInfo :=
  ⟨.splTokenId, .named "loader", false, 0, 1, blankState⟩

def systemProgramAccount : AccountInfo :=
  ⟨.systemProgramId, .named "loader", false, 0, 1, blankState⟩

/-- Clock before the example expiry. -/
def envPre : Env := ⟨0, 100⟩

/-- Clock exactly at the example expiry. -/
def envAt : Env := ⟨86400, 100⟩

/-- Clock after the example expiry. -/
def envPost : Env := ⟨100000, 100⟩

def depositAccounts : List AccountInfo :=
  [posAccount, vaultAccount, userAccount, userUnderlyingAta, tokenProgramAccount]

def tokenizePAccounts : List AccountInfo :=
  [posAccount, pmintAccount, userAccount, userPrincipalAta, tokenProgramAccount]

def claimAccounts : List AccountInfo :=
  [posAccount, vaultAccount, umintAccount, ymintAccount, userAccount,
    userUnderlyingAta, userYieldAta, tokenProgramAccount]

def redeemAccounts : List AccountInfo :=
  [posAccount, vaultAccount, umintAccount, pmintAccount, userAccount,
    userUnderlyingAta, userPrincipalAta, tokenProgramAccount, systemProgramAccount]

def terminateMintsAccounts : List AccountInfo :=
  [posAccount, authorityAccount false, pmintAccount, ymintAccount,
    tokenProgramAccount, systemProgramAccount]

def terminateTokenizerAccounts : List AccountInfo :=
  [posAccount, authorityAccount false, vaultAccount, tokenProgramAccount,
    systemProgramAccount]

/-! Inputs for a successful `InitializeLysergicTokenizer` call.  To satisfy
the handler's checks, which apply to the permuted parameters, the
instruction's `principal_token_mint` slot must carry the mint and its
`underlying_vault` and `underlying_mint` slots must carry the two mint
derivations; the `yield_token_mint` slot is never checked. -/

def exInitP : Pubkey := .named "P"

def exInitTokKey : Pubkey := get_tokenizer_address (.named "auth") exInitP 31536000

def exInitV : Pubkey := get_principal_mint_address exInitTokKey exInitP

def exInitM : Pubkey := get_yield_mint_address exInitTokKey exInitP

def exInitY : Pubkey := .named "Y"

def initAuthority : AccountInfo :=
  ⟨.named "auth", .systemProgramId, true, 0, 0, blankState⟩

def initPosAccount : AccountInfo :=
  ⟨exInitTokKey, .systemProgramId, false, 0, 0, blankState⟩

def initVaultAccount : AccountInfo :=
  ⟨.assoc exInitTokKey exInitP, .systemProgramId, false, 0, 0, blankState⟩

def initMintAccount : AccountInfo := ⟨exInitP, .splTokenId, false, 82, 10, blankState⟩

def initAccounts : List AccountInfo :=
  [initPosAccount, initAuthority, initVaultAccount, initMintAccount,
    tokenProgramAccount, systemProgramAccount]

/-- The `InitializeLysergicTokenizer` instruction of the example, fields in
instruction order `(underlying_vault, underlying_mint, principal_token_mint,
yield_token_mint, expiry, fixed_apy)`. -/
def exInitInstruction : LysergicTokenizerInstruction :=
  .InitializeLysergicTokenizer exInitV exInitM exInitP exInitY .TwelveMonths 7

/-! Inputs for the conservation witness: a ledger giving the user 100
underlying, everything else zero. -/

def exL0 : Ledger := fun k => if k = Pubkey.assoc (.named "user") (.named "u-mint") then 100 else 0

def exCalls : List OpCall :=
  [.deposit depositAccounts envPre 5, .claimYield claimAccounts envPre 2]

def exL2 : Ledger := (runTrace exState exL0 exCalls).getD exL0


deriving instance DecidableEq for Except

/-- C1: a successful `InitializeLysergicTokenizer` call does NOT write the
instruction parameters to their namesake fields.  The dispatch passes the
destructured fields positionally into a handler with a permuted parameter
order, so the record written for instruction parameters
`(underlying_vault = exInitV, underlying_mint = exInitM,
principal_token_mint = exInitP, yield_token_mint = exInitY)` has
`principal_token_mint = exInitV`, `yield_token_mint = exInitM`,
`underlying_mint = exInitP` and `underlying_vault = exInitY`; the four
inequalities show each field differs from the value the claim requires. -/
theorem claim_C1_init_record_permuted :
    process .crateId exInitInstruction initAccounts envPre =
      .ok [Effect.createAccount (.named "auth") exInitTokKey 100
          LYSERGIC_TOKENIZER_STATE_SIZE .crateId,
        Effect.createAta (.named "auth") (.assoc exInitTokKey exInitP) exInitP
          .splTokenId,
        Effect.writeState ⟨exInitV, exInitM, exInitP, exInitY, 31536000, 7⟩] ∧
    exInitY ≠ exInitV ∧ exInitP ≠ exInitM ∧ exInitV ≠ exInitP ∧ exInitM ≠ exInitY := by
  decide

/-- C2: successful `RedeemMaturePrincipal` and `ClaimYield` calls transfer
the underlying from the vault into the user's associated PT (resp. YT)
account, not the user's associated underlying account, before burning; the
final inequalities show the destinations differ from the accounts the claim
names. -/
theorem claim_C2_transfer_destination :
    process .crateId (.RedeemMaturePrincipal 5) redeemAccounts envPost =
      .ok [Effect.transfer .splTokenId (.named "vault")
          (.assoc (.named "user") (.named "pt-mint")) (.named "position") 5
          (some lysergic_signer_seeds),
        Effect.burn .splTokenId (.assoc (.named "user") (.named "pt-mint"))
          (.named "pt-mint") (.named "user") 5 none] ∧
    process .crateId (.ClaimYield 5) claimAccounts envPost =
      .ok [Effect.transfer .splTokenId (.named "vault")
          (.assoc (.named "user") (.named "yt-mint")) (.named "position") 5
          (some lysergic_signer_seeds),
        Effect.burn .splTokenId (.assoc (.named "user") (.named "yt-mint"))
          (.named "yt-mint") (.named "user") 5 none] ∧
    Pubkey.assoc (.named "user") (.named "pt-mint") ≠
      Pubkey.assoc (.named "user") (.named "u-mint") ∧
    Pubkey.assoc (.named "user") (.named "yt-mint") ≠
      Pubkey.assoc (.named "user") (.named "u-mint") := by
  decide


/-- C3 (amended): the expiry gate `block-time ≤ expiry_date →
ExpiryDateNotElapsed` holds for `RedeemMaturePrincipal`,
`TerminateLysergicTokenizer` and `TerminateMints` (on an initialized,
fully-sized position), while `RedeemPrincipalAndYield` and the combined
`Terminate` unconditionally fail with `NotEnoughAccountKeys` — but NOT for
`ClaimYield`, which carries no expiry check at all (see the counterexample). -/
theorem claim_C3_expiry_gates :
    (∀ (a0 a1 a2 a3 a4 a5 a6 a7 a8 : AccountInfo) (rest : List AccountInfo)
        (env : Env) (amount : Nat),
      a0.owner = Pubkey.crateId → ¬ a0.read_panics = true →
      env.now ≤ a0.stored.expiry_date →
      process_redeem_mature_principal
        (a0 :: a1 :: a2 :: a3 :: a4 :: a5 :: a6 :: a7 :: a8 :: rest) env amount =
        .error (.custom .ExpiryDateNotElapsed)) ∧
    (∀ (a0 a1 a2 a3 a4 : AccountInfo) (rest : List AccountInfo) (env : Env),
      ¬ a0.read_panics = true → env.now ≤ a0.stored.expiry_date →
      process_terminate_lysergic_tokenizer (a0 :: a1 :: a2 :: a3 :: a4 :: rest) env =
        .error (.custom .ExpiryDateNotElapsed)) ∧
    (∀ (a0 a1 a2 a3 a4 a5 : AccountInfo) (rest : List AccountInfo) (env : Env),
      ¬ a0.read_panics = true → env.now ≤ a0.stored.expiry_date →
      process_terminate_mints (a0 :: a1 :: a2 :: a3 :: a4 :: a5 :: rest) env =
        .error (.custom .ExpiryDateNotElapsed)) ∧
    (∀ (accounts : List AccountInfo) (env : Env) (amount : Nat),
      process_redeem_principal_and_yield accounts env amount =
        .error .notEnoughAccountKeys) ∧
    (∀ (accounts : List AccountInfo) (env : Env),
      process_terminate accounts env = .error .notEnoughAccountKeys) := by
  refine ⟨?_, ?_, ?_, ?_, ?_⟩
  · intro a0 a1 a2 a3 a4 a5 a6 a7 a8 rest env amount h1 h2 h3
    exact redeem_mature_gate h1 h2 h3
  · intro a0 a1 a2 a3 a4 rest env h1 h2
    exact terminate_lysergic_gate h1 h2
  · intro a0 a1 a2 a3 a4 a5 rest env h1 h2
    exact terminate_mints_gate h1 h2
  · intro accounts env amount
    exact process_redeem_principal_and_yield_error accounts env amount
  · intro accounts env
    exact process_terminate_error accounts env

/-- C3 witness: the gates at the concrete example inputs, each conjunct by
the amended theorem with the hypotheses discharged on `posAccount`/`envPre`. -/
theorem claim_C3_expiry_gates_witness :
    process_redeem_mature_principal redeemAccounts envPre 5 =
      .error (.custom .ExpiryDateNotElapsed) ∧
    process_terminate_lysergic_tokenizer terminateTokenizerAccounts envPre =
      .error (.custom .ExpiryDateNotElapsed) ∧
    process_terminate_mints terminateMintsAccounts envPre =
      .error (.custom .ExpiryDateNotElapsed) ∧
    process_redeem_principal_and_yield redeemAccounts envPre 5 =
      .error .notEnoughAccountKeys ∧
    process_terminate terminateMintsAccounts envPre =
      .error .notEnoughAccountKeys := by
  refine ⟨?_, ?_, ?_, ?_, ?_⟩
  · exact claim_C3_expiry_gates.1 posAccount vaultAccount umintAccount pmintAccount
      userAccount userUnderlyingAta userPrincipalAta tokenProgramAccount
      systemProgramAccount [] envPre 5 (by decide) (by decide) (by decide)
  · exact claim_C3_expiry_gates.2.1 posAccount (authorityAccount false) vaultAccount
      tokenProgramAccount systemProgramAccount [] envPre (by decide) (by decide)
  · exact claim_C3_expiry_gates.2.2.1 posAccount (authorityAccount false) pmintAccount
      ymintAccount tokenProgramAccount systemProgramAccount [] envPre
      (by decide) (by decide)
  · exact claim_C3_expiry_gates.2.2.2.1 redeemAccounts envPre 5
  · exact claim_C3_expiry_gates.2.2.2.2 terminateMintsAccounts envPre

/-- C3 counterexample: a `ClaimYield` call strictly before the recorded
expiry succeeds and moves value, so the original claim fails on this input. -/
theorem claim_C3_claim_yield_before_expiry :
    envPre.now < exState.expiry_date ∧
    process .crateId (.ClaimYield 5) claimAccounts envPre =
      .ok [Effect.transfer .splTokenId (.named "vault")
          (.assoc (.named "user") (.named "yt-mint")) (.named "position") 5
          (some lysergic_signer_seeds),
        Effect.burn .splTokenId (.assoc (.named "user") (.named "yt-mint"))
          (.named "yt-mint") (.named "user") 5 none] := by
  decide

/-- C4: both terminate handlers succeed with a NON-SIGNER authority account
— no `Unauthorised` error exists in the program, and no signer check is
performed; the effects close accounts and move lamports to that authority. -/
theorem claim_C4_terminate_without_signature :
    (authorityAccount false).is_signer = false ∧
    process .crateId .TerminateMints terminateMintsAccounts envPost =
      .ok [Effect.closeAccount .splTokenId (.named "pt-mint") (.named "authority")
          (.named "position") (some lysergic_signer_seeds),
        Effect.closeAccount .splTokenId (.named "yt-mint") (.named "authority")
          (.named "position") (some lysergic_signer_seeds),
        Effect.sysTransfer (.named "position") (.named "authority") 0
          (some lysergic_signer_seeds)] ∧
    process .crateId .TerminateLysergicTokenizer terminateTokenizerAccounts envPost =
      .ok [Effect.closeAccount .splTokenId (.named "vault") (.named "authority")
          (.named "position") (some lysergic_signer_seeds),
        Effect.sysTransfer (.named "position") (.named "authority") 5000
          (some lysergic_signer_seeds),
        Effect.assign (.named "position") Pubkey.systemProgramId,
        Effect.realloc (.named "position") 0] := by
  decide

/-- C5: `DepositUnderlying` succeeds at a block time strictly past the
recorded expiry (it has no expiry check), and `TokenizePrincipal` succeeds
at a block time exactly equal to the expiry (its gate is strict), so the
claimed `now ≥ expiry_date → ExpiryDateElapsed` behaviour does not hold. -/
theorem claim_C5_mint_after_expiry :
    exState.expiry_date ≤ envPost.now ∧
    process .crateId (.DepositUnderlying 5) depositAccounts envPost =
      .ok [Effect.transfer .splTokenId
          (.assoc (.named "user") (.named "u-mint")) (.named "vault")
          (.named "user") 5 none] ∧
    exState.expiry_date = envAt.now ∧
    process .crateId (.TokenizePrincipal 5) tokenizePAccounts envAt =
      .ok [Effect.mintTo .splTokenId (.named "pt-mint")
          (.assoc (.named "user") (.named "pt-mint")) (.named "position") 5
          (some lysergic_signer_seeds)] := by
  decide


/-- C6: conservation of underlying.  For any sequence of successful
value-moving operations on one initialized position whose vault is not
aliased by any associated token account, the final vault balance equals the
initial balance plus the deposits minus the principal redemptions minus the
yield claims. -/
theorem claim_C6_vault_conservation {s : LysergicTokenizerState}
    (hsafe : VaultUnaliased s) (calls : List OpCall) (L0 L : Ledger)
    (hrun : runTrace s L0 calls = some L) :
    (L s.underlying_vault : Int) =
      (L0 s.underlying_vault : Int) + depositTotal calls
        - redemptionTotal calls - yieldClaimTotal calls := by
  have h := runTrace_vault_conservation hsafe calls L0 L hrun
  omega

/-- C6 witness: the conservation theorem at the concrete two-call trace
(deposit 5, claim 2), with the separation and trace hypotheses discharged
on the example inputs. -/
theorem claim_C6_vault_conservation_witness :
    (exL2 exState.underlying_vault : Int) =
      (exL0 exState.underlying_vault : Int) + depositTotal exCalls
        - redemptionTotal exCalls - yieldClaimTotal exCalls :=
  claim_C6_vault_conservation
    (fun _ => ⟨fun h => Pubkey.noConfusion h, fun h => Pubkey.noConfusion h,
      fun h => Pubkey.noConfusion h⟩)
    exCalls exL0 exL2 rfl


/-- C7 (amended): the derivations the processor actually validates.  The
library helpers derive the position address from the seeds
`[underlying_mint, le64(expiry_date)]` — without the `"tokenizer"` literal
— and the mint addresses from `[address, literal]` — in the reversed seed
order — always under their caller-supplied first argument as derivation
program id; consequently each helper output differs from the corresponding
spec derivation, and a successful initialization binds the position address
under `authority.key` (not this program's id) and the mint parameters under
the position's own key, with the underlying mint standing where the helper
expects the tokenizer address. -/
theorem claim_C7_address_derivations :
    (∀ (pid m : Pubkey) (e : Int),
      (get_tokenizer_address pid m e).fpaSeeds =
        some ([.keyBytes m, .le64 e], pid)) ∧
    (∀ (pid t : Pubkey),
      (get_principal_mint_address pid t).fpaSeeds =
        some ([.keyBytes t, .lit "principal"], pid)) ∧
    (∀ (pid t : Pubkey),
      (get_yield_mint_address pid t).fpaSeeds =
        some ([.keyBytes t, .lit "yield"], pid)) ∧
    (∀ (m : Pubkey) (e : Int),
      (spec_position_address m e).fpaSeeds =
        some ([.lit "tokenizer", .keyBytes m, .le64 e], Pubkey.crateId)) ∧
    (∀ (pid m : Pubkey) (e : Int),
      get_tokenizer_address pid m e ≠ spec_position_address m e) ∧
    (∀ (pid t : Pubkey),
      get_principal_mint_address pid t ≠ spec_principal_mint_address t) ∧
    (∀ (pid t : Pubkey),
      get_yield_mint_address pid t ≠ spec_yield_mint_address t) ∧
    (∀ (a0 a1 a2 a3 a4 a5 : AccountInfo) (rest : List AccountInfo) (env : Env)
        (ptm ytm um uv : Pubkey) (expiry : Expiry) (apy : Nat) (effs : List Effect),
      process_initialize_lysergic_tokenizer (a0 :: a1 :: a2 :: a3 :: a4 :: a5 :: rest)
          env ptm ytm um uv expiry apy = .ok effs →
      a0.key = get_tokenizer_address a1.key um
          (Int.fdiv (env.now + expiry.to_seconds) 86400 * 86400) ∧
      ptm = get_principal_mint_address a0.key um ∧
      ytm = get_yield_mint_address a0.key um) := by
  refine ⟨fun _ _ _ => rfl, fun _ _ => rfl, fun _ _ => rfl, fun _ _ => rfl,
    fun _ _ _ h => Pubkey.noConfusion h, fun _ _ h => Pubkey.noConfusion h,
    fun _ _ h => Pubkey.noConfusion h, ?_⟩
  intro a0 a1 a2 a3 a4 a5 rest env ptm ytm um uv expiry apy effs h
  have h2 := process_initialize_lysergic_tokenizer_ok h
  exact ⟨h2.1, h2.2.2.1, h2.2.2.2.1⟩

/-- C7 witness: the derivation bindings at the example's successful
initialization, by the amended theorem with the success hypothesis
discharged by evaluation. -/
theorem claim_C7_address_derivations_witness :
    initPosAccount.key = get_tokenizer_address initAuthority.key exInitP
        (Int.fdiv (envPre.now + Expiry.to_seconds .TwelveMonths) 86400 * 86400) ∧
    exInitV = get_principal_mint_address initPosAccount.key exInitP ∧
    exInitM = get_yield_mint_address initPosAccount.key exInitP :=
  claim_C7_address_derivations.2.2.2.2.2.2.2 initPosAccount initAuthority
    initVaultAccount initMintAccount tokenProgramAccount systemProgramAccount []
    envPre exInitV exInitM exInitP exInitY .TwelveMonths 7
    [Effect.createAccount (.named "auth") exInitTokKey 100
        LYSERGIC_TOKENIZER_STATE_SIZE Pubkey.crateId,
      Effect.createAta (.named "auth") (.assoc exInitTokKey exInitP) exInitP
        .splTokenId,
      Effect.writeState ⟨exInitV, exInitM, exInitP, exInitY, 31536000, 7⟩]
    (by decide)

/-- C7 counterexample: the example initialization succeeds, yet the position
address it validated is not the spec derivation (its seeds lack the
`"tokenizer"` literal and its derivation program id is the authority's key),
and neither mint parameter matches the spec's mint derivation under the
position address. -/
theorem claim_C7_nonspec_bindings :
    (process .crateId exInitInstruction initAccounts envPre).isOk = true ∧
    exInitTokKey ≠ spec_position_address exInitP 31536000 ∧
    exInitV ≠ spec_principal_mint_address exInitTokKey ∧
    exInitM ≠ spec_yield_mint_address exInitTokKey ∧
    exInitTokKey.fpaSeeds =
      some ([.keyBytes exInitP, .le64 31536000], .named "auth") := by
  decide

/-- C8 (amended): every signed outbound call of every successful operation
is signed with the constant seed list `["lysergic-tokenizer", [0u8]]` — and
that list is NOT the position's derivation seed list for any mint, expiry
and bump, so the synthesized signature cannot be the position's. -/
theorem claim_C8_signer_seeds :
    (∀ (pid : Pubkey) (instr : LysergicTokenizerInstruction)
        (accounts : List AccountInfo) (env : Env) (effs : List Effect),
      process pid instr accounts env = .ok effs → OnlyLysergicSeeds effs) ∧
    (∀ (m : Pubkey) (e : Int) (b : Nat),
      lysergic_signer_seeds ≠ spec_position_signer_seeds m e b) := by
  refine ⟨fun _ _ _ _ _ h => process_only_lysergic_seeds h, ?_⟩
  intro m e b h
  have hl := congrArg List.length h
  simp [lysergic_signer_seeds, spec_position_signer_seeds] at hl

/-- C8 witness: the seed property at the example's successful
`TokenizePrincipal` call, and the seed inequality at the example position's
parameters, both by the amended theorem. -/
theorem claim_C8_signer_seeds_witness :
    OnlyLysergicSeeds [Effect.mintTo .splTokenId (.named "pt-mint")
      (.assoc (.named "user") (.named "pt-mint")) (.named "position") 5
      (some lysergic_signer_seeds)] ∧
    lysergic_signer_seeds ≠ spec_position_signer_seeds (.named "u-mint") 86400 0 :=
  ⟨claim_C8_signer_seeds.1 .crateId (.TokenizePrincipal 5) tokenizePAccounts envPre
      [Effect.mintTo .splTokenId (.named "pt-mint")
        (.assoc (.named "user") (.named "pt-mint")) (.named "position") 5
        (some lysergic_signer_seeds)] (by decide),
    claim_C8_signer_seeds.2 (.named "u-mint") 86400 0⟩

/-- C8 counterexample: the example `TokenizePrincipal` call succeeds and its
mint is signed with the constant seeds, which differ from the position's
derivation seeds at the position's own parameters. -/
theorem claim_C8_constant_seeds :
    process .crateId (.TokenizePrincipal 5) tokenizePAccounts envPre =
      .ok [Effect.mintTo .splTokenId (.named "pt-mint")
        (.assoc (.named "user") (.named "pt-mint")) (.named "position") 5
        (some lysergic_signer_seeds)] ∧
    lysergic_signer_seeds ≠
      spec_position_signer_seeds (.named "u-mint") 86400 0 := by
  decide

/-- C9 (amended): `to_expiry_date` computes `trunc((ts + to_seconds) / 86400)
* 86400` — Rust `i64` division truncates toward zero — with the claimed
per-term second counts; the result is always a multiple of 86400, and it
agrees with the claimed floor form whenever `ts + to_seconds ≥ 0`. -/
theorem claim_C9_to_expiry_date :
    (∀ (e : Expiry) (ts : Int),
      e.to_expiry_date ts = some ((ts + e.to_seconds).tdiv 86400 * 86400)) ∧
    Expiry.to_seconds .TwelveMonths = 31536000 ∧
    Expiry.to_seconds .EighteenMonths = 47304000 ∧
    Expiry.to_seconds .TwentyFourMonths = 63072000 ∧
    (∀ (e : Expiry) (ts r : Int), e.to_expiry_date ts = some r → (86400 : Int) ∣ r) ∧
    (∀ (e : Expiry) (ts : Int), 0 ≤ ts + e.to_seconds →
      e.to_expiry_date ts = some (Int.fdiv (ts + e.to_seconds) 86400 * 86400)) := by
  refine ⟨fun _ _ => rfl, rfl, rfl, rfl, ?_, ?_⟩
  · intro e ts r h
    simp only [Expiry.to_expiry_date, Option.some.injEq] at h
    exact h ▸ dvd_mul_left 86400 _
  · intro e ts hnn
    obtain ⟨n, hn⟩ := Int.eq_ofNat_of_zero_le hnn
    simp only [Expiry.to_expiry_date, hn]
    cases n with
    | zero => rfl
    | succ m => rfl

/-- C9 witness: the formulas at `TwelveMonths` and `ts = 0`, by the amended
theorem with the nonnegativity hypothesis discharged by evaluation. -/
theorem claim_C9_to_expiry_date_witness :
    Expiry.to_expiry_date .TwelveMonths 0 = some ((31536000 : Int).tdiv 86400 * 86400) ∧
    ((86400 : Int) ∣ (31536000 : Int).tdiv 86400 * 86400) ∧
    Expiry.to_expiry_date .TwelveMonths 0 =
      some (Int.fdiv (0 + Expiry.to_seconds .TwelveMonths) 86400 * 86400) :=
  ⟨claim_C9_to_expiry_date.1 .TwelveMonths 0,
    claim_C9_to_expiry_date.2.2.2.2.1 .TwelveMonths 0 _
      (claim_C9_to_expiry_date.1 .TwelveMonths 0),
    claim_C9_to_expiry_date.2.2.2.2.2 .TwelveMonths 0 (by decide)⟩

/-- C9 counterexample: at a pre-epoch timestamp the truncating division
rounds up, so the code's value differs from the claimed floor formula. -/
theorem claim_C9_truncation :
    Expiry.to_expiry_date .TwelveMonths (-31536001) = some 0 ∧
    Int.fdiv ((-31536001 : Int) + Expiry.to_seconds .TwelveMonths) 86400 * 86400 =
      -86400 ∧
    (0 : Int) ≠ -86400 := by
  decide

/-- C10 (amended): when the position account's data is shorter than the
state size, `DepositUnderlying` and `TerminateLysergicTokenizer` abort with
the modelled Rust panic (an out-of-range slice in the record read) — the
processor is not total on such inputs and no `ProgramError` is returned. -/
theorem claim_C10_short_data_panics :
    (∀ (a0 a1 a2 a3 a4 : AccountInfo) (rest : List AccountInfo) (env : Env)
        (amount : Nat),
      a0.data_len < LYSERGIC_TOKENIZER_STATE_SIZE →
      process_deposit_underlying (a0 :: a1 :: a2 :: a3 :: a4 :: rest) env amount =
        .error .panic) ∧
    (∀ (a0 a1 a2 a3 a4 : AccountInfo) (rest : List AccountInfo) (env : Env),
      a0.data_len < LYSERGIC_TOKENIZER_STATE_SIZE →
      process_terminate_lysergic_tokenizer (a0 :: a1 :: a2 :: a3 :: a4 :: rest) env =
        .error .panic) := by
  constructor
  · intro a0 a1 a2 a3 a4 rest env amount h
    simp only [process_deposit_underlying]
    rw [if_pos (by simp only [AccountInfo.read_panics, decide_eq_true_eq]; exact h)]
  · intro a0 a1 a2 a3 a4 rest env h
    simp only [process_terminate_lysergic_tokenizer]
    rw [if_pos (by simp only [AccountInfo.read_panics, decide_eq_true_eq]; exact h)]

/-- C10 witness: the panic outcomes at the truncated example position
account, by the amended theorem with the length hypothesis discharged by
evaluation. -/
theorem claim_C10_short_data_panics_witness :
    process_deposit_underlying (shortPosAccount :: vaultAccount :: userAccount ::
      userUnderlyingAta :: tokenProgramAccount :: []) envPre 5 = .error .panic ∧
    process_terminate_lysergic_tokenizer (shortPosAccount :: authorityAccount false ::
      vaultAccount :: tokenProgramAccount :: systemProgramAccount :: []) envPre =
      .error .panic :=
  ⟨claim_C10_short_data_panics.1 shortPosAccount vaultAccount userAccount
      userUnderlyingAta tokenProgramAccount [] envPre 5 (by decide),
    claim_C10_short_data_panics.2 shortPosAccount (authorityAccount false)
      vaultAccount tokenProgramAccount systemProgramAccount [] envPre (by decide)⟩

/-- C10 counterexample: on the truncated position account the deposit run
ends in the modelled panic abort, not in a returned `ProgramError`. -/
theorem claim_C10_deposit_panic :
    shortPosAccount.data_len < LYSERGIC_TOKENIZER_STATE_SIZE ∧
    process .crateId (.DepositUnderlying 5) (shortPosAccount :: vaultAccount ::
      userAccount :: userUnderlyingAta :: tokenProgramAccount :: []) envPre =
      .error .panic := by
  decide

end LysergicTokenizer
